import Mathlib

/-!
Shallow embedding of the liblisp interpreter core (howerj/c-lisp).

The main revision embedded here is `src/src/lisp.c` together with the
collector in `src/src/mem.c` and the allocator registry in `gc.c`.
Cells (`sexpr_t`) live at natural-number addresses in a store list; C
pointer equality is address equality, C mutation is a store update, and
allocation appends to the store (which doubles as the heap registry,
in allocation order).  Machine integers (`int32_t` cell payloads and the
`size_t` arithmetic in `primop_div`/`primop_nth`) are modelled as
`Int`/`Nat` with explicit reductions modulo 2^32 / 2^64; the build uses
`-fwrapv` (config.mk), so two's-complement wrap-around is the defined
semantics of signed overflow.

The parser/printer translation unit (`sexpr.c`) of this revision is not
in the snapshot — only its callers and the header contracts are — so its
two helpers used by the evaluator, `append` and `sexpr_perror`, are
modelled from the spec (each marked `Modelled from the spec:` below).

A second, earlier revision of the reader lives in `src/lisp.c`; its
`parse_string` is embedded separately at byte level near the end of the
definitions.
-/

namespace CLisp

/-- Cell tags, the `sexpr_e` enumeration used by `src/src/lisp.c`. -/
inductive Sexpr_e where
  | S_NIL
  | S_TEE
  | S_LIST
  | S_STRING
  | S_SYMBOL
  | S_INTEGER
  | S_PRIMITIVE
  | S_PROC
  | S_FILE
  | S_ERROR
  | S_QUOTE
  | S_LAST_TYPE
deriving DecidableEq, Repr

/-- Identifiers for the built-in primitive operations of
`LIST_OF_PRIMITIVE_OPERATIONS` (`src/src/lisp.c`); they stand for the C
function pointers stored in `data.func`. -/
inductive Prim where
  | padd
  | psub
  | pprod
  | pdiv
  | pmod
  | pcar
  | pcdr
  | pcons
  | pnth
  | plen
  | pnumeq
  | pprintexpr
  | pscar
  | pscdr
  | pscons
  | ptypeeq
  | preverse
  | psystem
deriving DecidableEq, Repr

/-- A cell, C struct `sexpr_t`.  The C payload is a union; here every
payload field is present, with the tag saying which one is meaningful
(`symbol` doubles for `data.symbol` and `data.string`). -/
structure Sexpr_t where
  type : Sexpr_e
  len : Nat := 0
  list : List Nat := []
  symbol : String := ""
  integer : Int := 0
  func : Option Prim := none
  gcmark : Bool := false
deriving DecidableEq, Repr

/-- The cell an unallocated address reads as (the C program would be
dereferencing garbage; no constructed state ever does). -/
def defaultCell : Sexpr_t := { type := Sexpr_e.S_LAST_TYPE }

/-- Interpreter state: the cell store (address space and heap registry in
allocation order), the file-static special cells of `src/src/lisp.c`
(`nil`, `tee`, `s_if` … `s_quote`), the two environments of the `lisp`
struct, the diagnostic stream (most recent first) and the output stream
(addresses handed to the printer, most recent first). -/
structure LState where
  store : List Sexpr_t
  nilA : Nat
  teeA : Nat
  sIf : Nat
  sLambda : Nat
  sBegin : Nat
  sDefine : Nat
  sSet : Nat
  sQuote : Nat
  global : Nat
  env : Nat
  diags : List String := []
  outs : List Nat := []
deriving DecidableEq, Repr

/-- Read the cell at an address (C pointer dereference). -/
def cellAt (st : LState) (a : Nat) : Sexpr_t :=
  st.store.getD a defaultCell

/-- Overwrite the cell at an address (C mutation through a pointer). -/
def setCell (st : LState) (a : Nat) (c : Sexpr_t) : LState :=
  { st with store := st.store.set a c }

/-- Allocate a fresh cell: the address is the current store length, the
store grows by one (`gc_calloc` in `gc.c` also threads the cell onto the
heap list; the store itself plays that role). -/
def alloc (st : LState) (c : Sexpr_t) : LState × Nat :=
  ({ st with store := st.store ++ [c] }, st.store.length)

/-- Modelled from the spec: `sexpr_perror` (in the absent `sexpr.c`)
writes one `(error "<message>" ...)` line to the error stream; here the
message is prepended to the diagnostic stream. -/
def sexpr_perror (msg : String) (st : LState) : LState :=
  { st with diags := msg :: st.diags }

/-- Modelled from the spec: `append(list, child)` (in the absent
`sexpr.c`) "grows the List's child array by one" and bumps the cached
length; `src/src/lisp.c` also applies it to the three-slot payload of a
Proc cell. -/
def append (lst child : Nat) (st : LState) : LState :=
  let c := cellAt st lst
  setCell st lst { c with list := c.list ++ [child], len := c.len + 1 }

/-- C `mkobj` (src/src/lisp.c:439): a zeroed cell with the tag set. -/
def mkobj (ty : Sexpr_e) (st : LState) : LState × Nat :=
  alloc st { type := ty }

/-- C `mksym` (src/src/lisp.c:449). -/
def mksym (s : String) (st : LState) : LState × Nat :=
  let p := mkobj Sexpr_e.S_SYMBOL st
  (setCell p.1 p.2 { cellAt p.1 p.2 with len := s.length, symbol := s }, p.2)

/-- C `mkprimop` (src/src/lisp.c:459). -/
def mkprimop (f : Prim) (st : LState) : LState × Nat :=
  let p := mkobj Sexpr_e.S_PRIMITIVE st
  (setCell p.1 p.2 { cellAt p.1 p.2 with func := some f }, p.2)

/-- C `mkproc` (src/src/lisp.c:468): a Proc cell `[params, code, env']`
where `env'` is a fresh List cell sharing the element references of
`env` (a shallow snapshot copy of the first `len` slots). -/
def mkproc (args code env : Nat) (st : LState) : LState × Nat :=
  let p := mkobj Sexpr_e.S_PROC st
  let st2 := append p.2 args p.1
  let st3 := append p.2 code st2
  let q := mkobj Sexpr_e.S_LIST st3
  let ec := cellAt q.1 env
  let st5 := setCell q.1 q.2
    { cellAt q.1 q.2 with list := ec.list.take ec.len, len := ec.len }
  (append p.2 q.2 st5, p.2)

/-- Reverse-order search of `dofind` (src/src/lisp.c:397): the C loop
runs the indices `len-1 … 1` and then index `0`, i.e. the reverse of the
first `len` slots; returns the matching `[symbol, value]` pair address
or the `nil` sentinel. -/
def dofindLoop (st : LState) (s : String) : List Nat → Nat
  | [] => st.nilA
  | p :: ps =>
    if (cellAt st ((cellAt st p).list.getD 0 0)).symbol = s then p
    else dofindLoop st s ps

/-- C `dofind` (src/src/lisp.c:397). -/
def dofind (st : LState) (env x : Nat) : Nat :=
  let ec := cellAt st env
  let xc := cellAt st x
  if ec.type ≠ Sexpr_e.S_LIST ∨ xc.type ≠ Sexpr_e.S_SYMBOL then st.nilA
  else if ec.len < 1 then st.nilA
  else dofindLoop st xc.symbol (ec.list.take ec.len).reverse

/-- C `find` (src/src/lisp.c:384): search `env`, then fall back to the
interpreter's global environment. -/
def find (st : LState) (env x : Nat) : Nat :=
  let nx := dofind st env x
  if nx = st.nilA then dofind st st.global x else nx

/-- C `extend` (src/src/lisp.c:422): allocate a two-element List
`[sym, val]`, append it to `env` in place, and return `val`. -/
def extend (sym val env : Nat) (st : LState) : LState × Nat :=
  let p := mkobj Sexpr_e.S_LIST st
  let st2 := append p.2 sym p.1
  let st3 := append p.2 val st2
  let st4 := append env p.2 st3
  (st4, val)

/-- Loop body of `extensions` (src/src/lisp.c:500): for each index,
extend `env` with the pair at that index of `syms`/`vals` (the cells are
re-read each iteration, as `NTH` does). -/
def extensionsLoop (env syms vals : Nat) : List Nat → LState → LState
  | [], st => st
  | i :: rest, st =>
    let s := (cellAt st syms).list.getD i 0
    let v := (cellAt st vals).list.getD i 0
    extensionsLoop env syms vals rest (extend s v env st).1

/-- C `extensions` (src/src/lisp.c:500): returns the `nil` sentinel when
the value list is empty, otherwise extends `env` in place once per index
below `syms->len` and returns `env` itself. -/
def extensions (env syms vals : Nat) (st : LState) : LState × Nat :=
  if (cellAt st vals).len = 0 then (st, st.nilA)
  else (extensionsLoop env syms vals (List.range (cellAt st syms).len) st, env)

/-- Two's-complement wrap of an `int32_t` value (`-fwrapv` semantics). -/
def wrap32 (i : Int) : Int :=
  (i + 2 ^ 31) % 2 ^ 32 - 2 ^ 31

/-- Conversion of an `int32_t` value to the 64-bit unsigned `size_t`
(C integer conversion: reduce modulo 2^64). -/
def sizeT (i : Int) : Nat :=
  (i % 2 ^ 64).toNat

/-- Machine unsigned division; division by zero is undefined behaviour
and is modelled as `none` (poison) so that its absence can be proved. -/
def udiv64 (a b : Nat) : Option Nat :=
  if b = 0 then none else some (a / b)

/-- Byte `i` of a C string payload; index `len` reads the NUL
terminator. -/
def strByte (s : String) (i : Nat) : Char :=
  s.data.getD i (Char.ofNat 0)

/-- Loop of `primop_add` (src/src/lisp.c:546): type-check each argument
and accumulate into the fresh Integer cell `nx` in place. -/
def addLoop (nx args : Nat) : List Nat → LState → LState × Nat
  | [], st => (st, nx)
  | i :: rest, st =>
    let ai := (cellAt st args).list.getD i 0
    if (cellAt st ai).type ≠ Sexpr_e.S_INTEGER then
      (sexpr_perror "arg != integer" st, st.nilA)
    else
      let c := cellAt st nx
      addLoop nx args rest
        (setCell st nx { c with integer := wrap32 (c.integer + (cellAt st ai).integer) })

/-- C `primop_add` (src/src/lisp.c:546). -/
def primop_add (args : Nat) (st : LState) : LState × Nat :=
  let p := mkobj Sexpr_e.S_INTEGER st
  if (cellAt p.1 args).len = 0 then (p.1, p.1.nilA)
  else addLoop p.2 args (List.range (cellAt p.1 args).len) p.1

/-- Loop of `primop_sub` (src/src/lisp.c:560): `nx` here is the first
argument cell, which the C code mutates in place. -/
def subLoop (nx args : Nat) : List Nat → LState → LState × Nat
  | [], st => (st, nx)
  | i :: rest, st =>
    let ai := (cellAt st args).list.getD i 0
    if (cellAt st ai).type ≠ Sexpr_e.S_INTEGER then
      (sexpr_perror "arg != integer" st, st.nilA)
    else
      let c := cellAt st nx
      subLoop nx args rest
        (setCell st nx { c with integer := wrap32 (c.integer - (cellAt st ai).integer) })

/-- C `primop_sub` (src/src/lisp.c:560): allocates a fresh Integer cell
it then abandons, rebinds `nx` to the first argument, and subtracts the
tail into that argument cell in place. -/
def primop_sub (args : Nat) (st : LState) : LState × Nat :=
  let p := mkobj Sexpr_e.S_INTEGER st
  if (cellAt p.1 args).len = 0 then (p.1, p.1.nilA)
  else
    let nx := (cellAt p.1 args).list.getD 0 0
    if (cellAt p.1 nx).type ≠ Sexpr_e.S_INTEGER then
      (sexpr_perror "arg != integer" p.1, p.1.nilA)
    else subLoop nx args ((List.range (cellAt p.1 args).len).drop 1) p.1

/-- Loop of `primop_prod` (src/src/lisp.c:576); as in `primop_sub`,
`nx` is the first argument cell, mutated in place. -/
def prodLoop (nx args : Nat) : List Nat → LState → LState × Nat
  | [], st => (st, nx)
  | i :: rest, st =>
    let ai := (cellAt st args).list.getD i 0
    if (cellAt st ai).type ≠ Sexpr_e.S_INTEGER then
      (sexpr_perror "arg != integer" st, st.nilA)
    else
      let c := cellAt st nx
      prodLoop nx args rest
        (setCell st nx { c with integer := wrap32 (c.integer * (cellAt st ai).integer) })

/-- C `primop_prod` (src/src/lisp.c:576). -/
def primop_prod (args : Nat) (st : LState) : LState × Nat :=
  let p := mkobj Sexpr_e.S_INTEGER st
  if (cellAt p.1 args).len = 0 then (p.1, p.1.nilA)
  else
    let nx := (cellAt p.1 args).list.getD 0 0
    if (cellAt p.1 nx).type ≠ Sexpr_e.S_INTEGER then
      (sexpr_perror "arg != integer" p.1, p.1.nilA)
    else prodLoop nx args ((List.range (cellAt p.1 args).len).drop 1) p.1

/-- Loop of `primop_div` (src/src/lisp.c:592).  `tmp` is a `size_t`, so
`nx->data.integer /= tmp` promotes the `int32_t` to 64-bit unsigned,
divides, and wraps the quotient back into the `int32_t`; the division is
guarded by `if (tmp)`, the zero branch diagnosing and returning `nil`.
The division itself goes through `udiv64`, whose poison value `none`
would mark a division by zero. -/
def divLoop (nx args : Nat) : List Nat → LState → Option (LState × Nat)
  | [], st => some (st, nx)
  | i :: rest, st =>
    let ai := (cellAt st args).list.getD i 0
    if (cellAt st ai).type ≠ Sexpr_e.S_INTEGER then
      some (sexpr_perror "arg != integer" st, st.nilA)
    else
      let tmp := sizeT (cellAt st ai).integer
      if tmp ≠ 0 then
        match udiv64 (sizeT (cellAt st nx).integer) tmp with
        | some q =>
          divLoop nx args rest
            (setCell st nx { cellAt st nx with integer := wrap32 (Int.ofNat q) })
        | none => none
      else some (sexpr_perror "div: 0/" st, st.nilA)

/-- C `primop_div` (src/src/lisp.c:592); like `primop_sub` it abandons a
fresh cell and accumulates into the first argument cell. -/
def primop_div (args : Nat) (st : LState) : Option (LState × Nat) :=
  let p := mkobj Sexpr_e.S_INTEGER st
  if (cellAt p.1 args).len = 0 then some (p.1, p.1.nilA)
  else
    let nx := (cellAt p.1 args).list.getD 0 0
    if (cellAt p.1 nx).type ≠ Sexpr_e.S_INTEGER then
      some (sexpr_perror "arg != integer" p.1, p.1.nilA)
    else divLoop nx args ((List.range (cellAt p.1 args).len).drop 1) p.1

/-- C `primop_mod` (src/src/lisp.c:614); C `%` on `int32_t` is the
truncated remainder, `Int.tmod`. -/
def primop_mod (args : Nat) (st : LState) : LState × Nat :=
  let p := mkobj Sexpr_e.S_INTEGER st
  let st1 := p.1
  if (cellAt st1 args).len ≠ 2 then (sexpr_perror "mod: argc != 2" st1, st1.nilA)
  else
    let a1 := (cellAt st1 args).list.getD 0 0
    let a2 := (cellAt st1 args).list.getD 1 0
    if (cellAt st1 a1).type ≠ Sexpr_e.S_INTEGER then
      (sexpr_perror "arg != integer" st1, st1.nilA)
    else if (cellAt st1 a2).type ≠ Sexpr_e.S_INTEGER then
      (sexpr_perror "arg != integer" st1, st1.nilA)
    else
      let tmp := (cellAt st1 a2).integer
      if tmp = 0 then (sexpr_perror "mod: 0/" st1, st1.nilA)
      else
        (setCell st1 p.2
          { cellAt st1 p.2 with integer := Int.tmod (cellAt st1 a1).integer tmp }, p.2)

/-- C `primop_car` (src/src/lisp.c:636): after the arity and type
checks it returns `CAR(a1)` unconditionally — on a zero-length list that
reads slot 0 of a NULL element array, modelled as the poison `none`. -/
def primop_car (args : Nat) (st : LState) : Option (LState × Nat) :=
  if (cellAt st args).len ≠ 1 then some (sexpr_perror "car: argc != 1" st, st.nilA)
  else
    let a1 := (cellAt st args).list.getD 0 0
    if (cellAt st a1).type ≠ Sexpr_e.S_LIST then
      some (sexpr_perror "args != list" st, st.nilA)
    else
      match (cellAt st a1).list.get? 0 with
      | some r => some (st, r)
      | none => none

/-- C `primop_cdr` (src/src/lisp.c:653). -/
def primop_cdr (args : Nat) (st : LState) : LState × Nat :=
  if (cellAt st args).len = 0 then (st, st.nilA)
  else
    let p := mkobj Sexpr_e.S_LIST st
    let st1 := p.1
    let carg := (cellAt st1 args).list.getD 0 0
    if (cellAt st1 carg).type ≠ Sexpr_e.S_LIST ∨ (cellAt st1 carg).len ≤ 1 then
      (st1, st1.nilA)
    else
      let cc := cellAt st1 carg
      (setCell st1 p.2
        { cellAt st1 p.2 with list := (cc.list.take cc.len).drop 1, len := cc.len - 1 }, p.2)

/-- C `primop_cons` (src/src/lisp.c:672). -/
def primop_cons (args : Nat) (st : LState) : LState × Nat :=
  let p := mkobj Sexpr_e.S_LIST st
  let st1 := p.1
  if (cellAt st1 args).len ≠ 2 then (sexpr_perror "cons: argc != 2" st1, st1.nilA)
  else
    let pre := (cellAt st1 args).list.getD 0 0
    let lst := (cellAt st1 args).list.getD 1 0
    if (cellAt st1 lst).type = Sexpr_e.S_NIL then (append p.2 pre st1, p.2)
    else if (cellAt st1 lst).type = Sexpr_e.S_LIST then
      let lc := cellAt st1 lst
      (setCell st1 p.2
        { cellAt st1 p.2 with list := pre :: lc.list.take lc.len, len := lc.len + 1 }, p.2)
    else (append p.2 lst (append p.2 pre st1), p.2)

/-- C `primop_nth` (src/src/lisp.c:698).  A negative index is shifted by
the length (the C sum happens in `size_t` and is wrapped back into the
`int32_t`); the guard is `(size_t)i > a2->len`, so `i = len` slips
through — on a List that reads one slot past the element array, the
poison `none`; on a String it reads the NUL terminator, which is
defined. -/
def primop_nth (args : Nat) (st : LState) : Option (LState × Nat) :=
  if (cellAt st args).len ≠ 2 then some (sexpr_perror "NTH: argc != 2" st, st.nilA)
  else
    let a1 := (cellAt st args).list.getD 0 0
    let a2 := (cellAt st args).list.getD 1 0
    if (cellAt st a1).type ≠ Sexpr_e.S_INTEGER then
      some (sexpr_perror "NTH: arg 1 != integer" st, st.nilA)
    else if (cellAt st a2).type ≠ Sexpr_e.S_LIST ∧ (cellAt st a2).type ≠ Sexpr_e.S_STRING then
      some (sexpr_perror "NTH: arg 2 != list || string" st, st.nilA)
    else
      let i0 := (cellAt st a1).integer
      let i1 := if i0 < 0 then wrap32 ((cellAt st a2).len + i0) else i0
      if sizeT i1 > (cellAt st a2).len then some (st, st.nilA)
      else if (cellAt st a2).type = Sexpr_e.S_LIST then
        match (cellAt st a2).list.get? i1.toNat with
        | some r => some (st, r)
        | none => none
      else
        let p := mkobj Sexpr_e.S_STRING st
        let ch := strByte (cellAt p.1 a2).symbol i1.toNat
        some (setCell p.1 p.2
          { cellAt p.1 p.2 with symbol := String.mk [ch], len := 1 }, p.2)

/-- C `primop_len` (src/src/lisp.c:741). -/
def primop_len (args : Nat) (st : LState) : LState × Nat :=
  let p := mkobj Sexpr_e.S_INTEGER st
  let st1 := p.1
  if (cellAt st1 args).len ≠ 1 then (sexpr_perror "len: argc != 1" st1, st1.nilA)
  else
    let a1 := (cellAt st1 args).list.getD 0 0
    if (cellAt st1 a1).type ≠ Sexpr_e.S_LIST ∧ (cellAt st1 a1).type ≠ Sexpr_e.S_STRING then
      (sexpr_perror "len: arg 2 != list || string" st1, st1.nilA)
    else
      (setCell st1 p.2
        { cellAt st1 p.2 with integer := wrap32 (Int.ofNat (cellAt st1 a1).len) }, p.2)

/-- Loop of `primop_numeq` (src/src/lisp.c:758); the first argument cell
is mutated along the way (`nx->data.integer = ...`). -/
def numeqLoop (nx args : Nat) : List Nat → LState → LState × Nat
  | [], st => (st, st.teeA)
  | i :: rest, st =>
    let ai := (cellAt st args).list.getD i 0
    if (cellAt st ai).type ≠ Sexpr_e.S_INTEGER then
      (sexpr_perror "arg != integer" st, st.nilA)
    else if (cellAt st nx).integer ≠ (cellAt st ai).integer then (st, st.nilA)
    else
      numeqLoop nx args rest
        (setCell st nx { cellAt st nx with integer := (cellAt st ai).integer })

/-- C `primop_numeq` (src/src/lisp.c:758). -/
def primop_numeq (args : Nat) (st : LState) : LState × Nat :=
  if (cellAt st args).len = 0 then (st, st.nilA)
  else
    let nx := (cellAt st args).list.getD 0 0
    if (cellAt st nx).type ≠ Sexpr_e.S_INTEGER then
      (sexpr_perror "arg != integer" st, st.nilA)
    else numeqLoop nx args ((List.range (cellAt st args).len).drop 1) st

/-- C `primop_printexpr` (src/src/lisp.c:777): hands `args` to the
printer (recorded on the output stream; `sexpr_print` is in the absent
`sexpr.c` and, per the spec, must not modify cells) and returns `args`. -/
def primop_printexpr (args : Nat) (st : LState) : LState × Nat :=
  ({ st with outs := args :: st.outs }, args)

/-- C `primop_scar` (src/src/lisp.c:785). -/
def primop_scar (args : Nat) (st : LState) : LState × Nat :=
  if (cellAt st args).len ≠ 1 then (sexpr_perror "CAR: argc != 1" st, st.nilA)
  else
    let a1 := (cellAt st args).list.getD 0 0
    if (cellAt st a1).type ≠ Sexpr_e.S_STRING then
      (sexpr_perror "args != string" st, st.nilA)
    else
      let p := mkobj Sexpr_e.S_STRING st
      (setCell p.1 p.2
        { cellAt p.1 p.2 with
            symbol := String.mk [strByte (cellAt p.1 a1).symbol 0], len := 1 }, p.2)

/-- C `primop_scdr` (src/src/lisp.c:805). -/
def primop_scdr (args : Nat) (st : LState) : LState × Nat :=
  if (cellAt st args).len = 0 then (st, st.nilA)
  else
    let p := mkobj Sexpr_e.S_STRING st
    let st1 := p.1
    let carg := (cellAt st1 args).list.getD 0 0
    if (cellAt st1 carg).type ≠ Sexpr_e.S_STRING ∨ (cellAt st1 carg).len ≤ 1 then
      (st1, st1.nilA)
    else
      let cc := cellAt st1 carg
      (setCell st1 p.2
        { cellAt st1 p.2 with
            symbol := String.mk ((cc.symbol.data.take cc.len).drop 1),
            len := cc.len - 1 }, p.2)

/-- C `primop_scons` (src/src/lisp.c:824). -/
def primop_scons (args : Nat) (st : LState) : LState × Nat :=
  let p := mkobj Sexpr_e.S_LIST st
  let st1 := p.1
  if (cellAt st1 args).len ≠ 2 then (sexpr_perror "cons: argc != 2" st1, st1.nilA)
  else
    let pre := (cellAt st1 args).list.getD 0 0
    let lst := (cellAt st1 args).list.getD 1 0
    if (cellAt st1 lst).type = Sexpr_e.S_STRING ∧ (cellAt st1 pre).type = Sexpr_e.S_STRING then
      (setCell st1 p.2
        { cellAt st1 p.2 with
            type := Sexpr_e.S_STRING,
            symbol := (cellAt st1 pre).symbol ++ (cellAt st1 lst).symbol,
            len := (cellAt st1 lst).len + (cellAt st1 pre).len }, p.2)
    else (sexpr_perror "cons: arg != string" st1, st1.nilA)

/-- Loop of `primop_typeeq` (src/src/lisp.c:847). -/
def typeeqLoop (nx args : Nat) : List Nat → LState → LState × Nat
  | [], st => (st, st.teeA)
  | i :: rest, st =>
    let ai := (cellAt st args).list.getD i 0
    if (cellAt st nx).type ≠ (cellAt st ai).type then (st, st.nilA)
    else typeeqLoop nx args rest st

/-- C `primop_typeeq` (src/src/lisp.c:847); the NULL-argument guard of
the C code cannot fire here (addresses are always present). -/
def primop_typeeq (args : Nat) (st : LState) : LState × Nat :=
  if (cellAt st args).len = 0 then (st, st.nilA)
  else
    let nx := (cellAt st args).list.getD 0 0
    typeeqLoop nx args ((List.range (cellAt st args).len).drop 1) st

/-- C `primop_reverse` (src/src/lisp.c:868). -/
def primop_reverse (args : Nat) (st : LState) : LState × Nat :=
  if (cellAt st args).len ≠ 1 then (sexpr_perror "reverse: argc != 1" st, st.nilA)
  else
    let carg := (cellAt st args).list.getD 0 0
    let ty := (cellAt st carg).type
    if ty ≠ Sexpr_e.S_LIST ∧ ty ≠ Sexpr_e.S_STRING then
      (sexpr_perror "reverse: not a reversible type" st, st.nilA)
    else
      let p := mkobj ty st
      let cc := cellAt p.1 carg
      if ty = Sexpr_e.S_LIST then
        (setCell p.1 p.2
          { cellAt p.1 p.2 with list := (cc.list.take cc.len).reverse, len := cc.len }, p.2)
      else
        (setCell p.1 p.2
          { cellAt p.1 p.2 with
              symbol := String.mk (cc.symbol.data.take cc.len).reverse, len := cc.len }, p.2)

/-- C `primop_system` (src/src/lisp.c:901): after the checks it hands
the string to the host's `system(3)`; the host call is external to the
model (poison `none`). -/
def primop_system (args : Nat) (st : LState) : Option (LState × Nat) :=
  if (cellAt st args).len ≠ 1 then some (sexpr_perror "system: argc != 1" st, st.nilA)
  else
    let carg := (cellAt st args).list.getD 0 0
    if (cellAt st carg).type ≠ Sexpr_e.S_STRING then
      some (sexpr_perror "system: arg != string" st, st.nilA)
    else none

/-- Dispatch on a primitive's function pointer (`proc->data.func`). -/
def applyPrim : Prim → Nat → LState → Option (LState × Nat)
  | Prim.padd, args, st => some (primop_add args st)
  | Prim.psub, args, st => some (primop_sub args st)
  | Prim.pprod, args, st => some (primop_prod args st)
  | Prim.pdiv, args, st => primop_div args st
  | Prim.pmod, args, st => some (primop_mod args st)
  | Prim.pcar, args, st => primop_car args st
  | Prim.pcdr, args, st => some (primop_cdr args st)
  | Prim.pcons, args, st => some (primop_cons args st)
  | Prim.pnth, args, st => primop_nth args st
  | Prim.plen, args, st => some (primop_len args st)
  | Prim.pnumeq, args, st => some (primop_numeq args st)
  | Prim.pprintexpr, args, st => some (primop_printexpr args st)
  | Prim.pscar, args, st => some (primop_scar args st)
  | Prim.pscdr, args, st => some (primop_scdr args st)
  | Prim.pscons, args, st => some (primop_scons args st)
  | Prim.ptypeeq, args, st => some (primop_typeeq args st)
  | Prim.preverse, args, st => some (primop_reverse args st)
  | Prim.psystem, args, st => primop_system args st

/-- Shape of the evaluator at one fuel level lower, passed to the loop
helpers below. -/
abbrev EvalFn := Nat → Nat → LState → Option (LState × Nat)

/-- Loop of `evlis` (src/src/lisp.c:488): evaluate each listed index of
`x` and append the result to the fresh list `nx`. -/
def evlisLoop (ev : EvalFn) (nx x env : Nat) : List Nat → LState → Option LState
  | [], st => some st
  | i :: rest, st => do
    let r ← ev ((cellAt st x).list.getD i 0) env st
    evlisLoop ev nx x env rest (append nx r.2 r.1)

/-- C `evlis` (src/src/lisp.c:488): evaluate the non-head elements of
`x` left to right into a fresh List. -/
def evlisF (ev : EvalFn) (x env : Nat) (st : LState) : Option (LState × Nat) := do
  let p := mkobj Sexpr_e.S_LIST st
  let st2 ← evlisLoop ev p.2 x env ((List.range (cellAt p.1 x).len).drop 1) p.1
  some (st2, p.2)

/-- C `apply` (src/src/lisp.c:516): dispatch on the callee's tag; for a
Proc, check the argument count, extend the captured environment through
`extensions`, and evaluate the body there. -/
def applyF (ev : EvalFn) (proc args : Nat) (st : LState) : Option (LState × Nat) :=
  if (cellAt st proc).type = Sexpr_e.S_PRIMITIVE then
    match (cellAt st proc).func with
    | some p => applyPrim p args st
    | none => none
  else if (cellAt st proc).type = Sexpr_e.S_PROC then
    if (cellAt st args).len ≠ (cellAt st ((cellAt st proc).list.getD 0 0)).len then
      some (sexpr_perror "expected number of args incorrect" st, st.nilA)
    else
      let q := extensions ((cellAt st proc).list.getD 2 0) ((cellAt st proc).list.getD 0 0)
        args st
      ev ((cellAt q.1 proc).list.getD 1 0) q.2 q.1
  else some (sexpr_perror "apply failed" st, st.nilA)

/-- Loop of the `begin` form (src/src/lisp.c:291): evaluate the indexed
elements of `x` in order, discarding the values. -/
def beginLoop (ev : EvalFn) (x env : Nat) : List Nat → LState → Option LState
  | [], st => some st
  | i :: rest, st => do
    let r ← ev ((cellAt st x).list.getD i 0) env st
    beginLoop ev x env rest r.1

/-- C `lisp_eval` (src/src/lisp.c:262), with fuel for the recursion
(`none` = fuel ran out, or one of the modelled undefined/aborting paths
was reached).  A non-empty list whose head is a Symbol first evaluates
the head and compares the result, by address, against the interned
special-form markers in source order (`if`, `begin`, `quote`, `set`,
`define`, `lambda`), falling through to application; cells are re-read
from the current state at each C read. -/
def lisp_eval : Nat → Nat → Nat → LState → Option (LState × Nat)
  | 0, _, _, _ => none
  | Nat.succ n, x, env, st =>
    if (cellAt st x).type = Sexpr_e.S_LIST then
      if (cellAt st x).len = 0 then some (st, st.nilA)
      else if (cellAt st ((cellAt st x).list.getD 0 0)).type = Sexpr_e.S_SYMBOL then do
        let f ← lisp_eval n ((cellAt st x).list.getD 0 0) env st
        let st1 := f.1
        if f.2 = st1.sIf then
          if (cellAt st1 x).len ≠ 4 then some (sexpr_perror "if: argc != 4" st1, st1.nilA)
          else do
            let t ← lisp_eval n ((cellAt st1 x).list.getD 1 0) env st1
            if t.2 = t.1.nilA then lisp_eval n ((cellAt t.1 x).list.getD 3 0) env t.1
            else lisp_eval n ((cellAt t.1 x).list.getD 2 0) env t.1
        else if f.2 = st1.sBegin then
          if (cellAt st1 x).len = 1 then some (st1, st1.nilA)
          else do
            let st2 ← beginLoop (fun a b c => lisp_eval n a b c) x env
              ((List.range ((cellAt st1 x).len - 1)).drop 1) st1
            lisp_eval n ((cellAt st2 x).list.getD ((cellAt st2 x).len - 1) 0) env st2
        else if f.2 = st1.sQuote then
          if (cellAt st1 x).len ≠ 2 then some (sexpr_perror "quote: argc != 1" st1, st1.nilA)
          else some (st1, (cellAt st1 x).list.getD 1 0)
        else if f.2 = st1.sSet then
          if (cellAt st1 x).len ≠ 3 then some (sexpr_perror "set: argc != 2" st1, st1.nilA)
          else
            let nx := find st1 env ((cellAt st1 x).list.getD 1 0)
            if nx = st1.nilA then some (sexpr_perror "unbound symbol" st1, st1.nilA)
            else do
              let v ← lisp_eval n ((cellAt st1 x).list.getD 2 0) env st1
              let st3 := setCell v.1 nx
                { cellAt v.1 nx with list := (cellAt v.1 nx).list.set 1 v.2 }
              some (st3, (cellAt st3 nx).list.getD 1 0)
        else if f.2 = st1.sDefine then
          if (cellAt st1 x).len ≠ 3 then some (sexpr_perror "define: argc != 2" st1, st1.nilA)
          else do
            let v ← lisp_eval n ((cellAt st1 x).list.getD 2 0) env st1
            some (extend ((cellAt v.1 x).list.getD 1 0) v.2 v.1.global v.1)
        else if f.2 = st1.sLambda then
          if (cellAt st1 x).len ≠ 3 then some (sexpr_perror "lambda: argc != 2" st1, st1.nilA)
          else some (mkproc ((cellAt st1 x).list.getD 1 0) ((cellAt st1 x).list.getD 2 0) env st1)
        else do
          let a ← evlisF (fun a b c => lisp_eval n a b c) x env st1
          applyF (fun a b c => lisp_eval n a b c) f.2 a.2 a.1
      else some (sexpr_perror "cannot apply" st, st.nilA)
    else if (cellAt st x).type = Sexpr_e.S_SYMBOL then
      let nx := find st env x
      if nx = st.nilA then some (sexpr_perror "unbound symbol" st, st.nilA)
      else some (st, (cellAt st nx).list.getD 1 0)
    else if (cellAt st x).type = Sexpr_e.S_FILE then
      some (sexpr_perror "file type unimplemented" st, st.nilA)
    else if (cellAt st x).type = Sexpr_e.S_NIL ∨ (cellAt st x).type = Sexpr_e.S_TEE
        ∨ (cellAt st x).type = Sexpr_e.S_STRING ∨ (cellAt st x).type = Sexpr_e.S_PROC
        ∨ (cellAt st x).type = Sexpr_e.S_INTEGER
        ∨ (cellAt st x).type = Sexpr_e.S_PRIMITIVE then
      some (st, x)
    else none

/-- C `evlis` at a given fuel level. -/
def evlis (n : Nat) (x env : Nat) (st : LState) : Option (LState × Nat) :=
  evlisF (fun a b c => lisp_eval n a b c) x env st

/-- C `apply` at a given fuel level. -/
def apply (n : Nat) (proc args : Nat) (st : LState) : Option (LState × Nat) :=
  applyF (fun a b c => lisp_eval n a b c) proc args st

/-- Result address of an evaluation, discarding the final state. -/
def evalResult (n : Nat) (x env : Nat) (st : LState) : Option Nat :=
  (lisp_eval n x env st).map (fun r => r.2)

/-- C `extendprimop` (src/src/lisp.c:432). -/
def extendprimop (s : String) (f : Prim) (st : LState) : LState :=
  let q := mksym s st
  let r := mkprimop f q.1
  (extend q.2 r.2 r.1.global r.1).1

/-- The initializer table `primops` (src/src/lisp.c:98), in source
order. -/
def initPrimops : List (String × Prim) :=
  [("+", Prim.padd), ("-", Prim.psub), ("*", Prim.pprod), ("/", Prim.pdiv),
   ("mod", Prim.pmod), ("car", Prim.pcar), ("cdr", Prim.pcdr), ("cons", Prim.pcons),
   ("nth", Prim.pnth), ("length", Prim.plen), ("=", Prim.pnumeq),
   ("print", Prim.pprintexpr), ("scar", Prim.pscar), ("scdr", Prim.pscdr),
   ("scons", Prim.pscons), ("eqt", Prim.ptypeeq), ("reverse", Prim.preverse),
   ("system", Prim.psystem)]

/-- C `lisp_init` (src/src/lisp.c:111): the `global` and `env` cells are
raw `mem_calloc` allocations retyped to `S_LIST`; then `nil`, `tee`, the
six special-form marker symbols, the `nil`/`t` bindings, the marker
self-bindings, and the primitive table are created in source order. -/
def lisp_init : LState :=
  let st0 : LState :=
    { store := [], nilA := 0, teeA := 0, sIf := 0, sLambda := 0, sBegin := 0,
      sDefine := 0, sSet := 0, sQuote := 0, global := 0, env := 0 }
  let g := alloc st0 { type := Sexpr_e.S_LIST }
  let e := alloc g.1 { type := Sexpr_e.S_LIST }
  let cn := mkobj Sexpr_e.S_NIL e.1
  let ct := mkobj Sexpr_e.S_TEE cn.1
  let aIf := mksym "if" ct.1
  let aLambda := mksym "lambda" aIf.1
  let aBegin := mksym "begin" aLambda.1
  let aDefine := mksym "define" aBegin.1
  let aSet := mksym "set" aDefine.1
  let aQuote := mksym "quote" aSet.1
  let stA : LState :=
    { aQuote.1 with
        nilA := cn.2, teeA := ct.2, sIf := aIf.2, sLambda := aLambda.2,
        sBegin := aBegin.2, sDefine := aDefine.2, sSet := aSet.2,
        sQuote := aQuote.2, global := g.2, env := e.2 }
  let sn := mksym "nil" stA
  let stB := (extend sn.2 cn.2 g.2 sn.1).1
  let stt := mksym "t" stB
  let stC := (extend stt.2 ct.2 g.2 stt.1).1
  let stD := (extend aIf.2 aIf.2 g.2 stC).1
  let stE := (extend aLambda.2 aLambda.2 g.2 stD).1
  let stF := (extend aBegin.2 aBegin.2 g.2 stE).1
  let stG := (extend aDefine.2 aDefine.2 g.2 stF).1
  let stH := (extend aSet.2 aSet.2 g.2 stG).1
  let stI := (extend aQuote.2 aQuote.2 g.2 stH).1
  initPrimops.foldl (fun st p => extendprimop p.1 p.2 st) stI

/-- C `gcmark` (src/src/mem.c:154), with fuel for the recursion: set the
mark bit unless already set, then recurse into the children (every slot
of a List below its length; the three payload slots of a Proc); other
tags have no children.  The `S_ERROR`/`S_QUOTE`/`S_LAST_TYPE` default
branch aborts the C process; no such cell is ever allocated by this
interpreter, and it is modelled as marking the cell and stopping. -/
def gcmark : Nat → List Sexpr_t → Nat → List Sexpr_t
  | 0, store, _ => store
  | Nat.succ n, store, root =>
    let c := store.getD root defaultCell
    if c.gcmark = true then store
    else
      let store1 := store.set root { c with gcmark := true }
      if c.type = Sexpr_e.S_LIST then
        (List.range c.len).foldl (fun s i => gcmark n s (c.list.getD i 0)) store1
      else if c.type = Sexpr_e.S_PROC then
        gcmark n (gcmark n (gcmark n store1 (c.list.getD 0 0)) (c.list.getD 1 0))
          (c.list.getD 2 0)
      else store1

/-- C `gcsweep` (src/src/mem.c:197): the body of the sweep is empty in
this revision — it frees nothing and clears no marks. -/
def gcsweep (store : List Sexpr_t) : List Sexpr_t :=
  store

/-- C `lisp_clean` (src/src/lisp.c:375): mark from `l->global` only,
then sweep. -/
def lisp_clean (fuel : Nat) (st : LState) : LState :=
  { st with store := gcsweep (gcmark fuel st.store st.global) }

/-- String-size bound of the early reader.  Modelled from the spec: the
`MAX_STR` constant lives in the missing `lisp.h`; the spec gives the
default limit ≈ 4096 bytes. -/
def MAX_STR : Nat := 4096

/-- Loop of `parse_string` in the early revision `src/lisp.c:111`: bytes
are consumed until an unescaped `"` (34); a backslash (92) escapes
exactly one following byte, mapping `\` and `"` to themselves and `n`
(110) to newline (10) — any other escaped byte is a "Not an escape
character" failure; end of input or a buffer past `MAX_STR` is a
failure.  `none` is the C NULL return. -/
def parse_string_loop : List Nat → List Nat → Option (List Nat)
  | _, [] => none
  | buf, c :: rest =>
    if buf.length ≥ MAX_STR then none
    else if c = 34 then some buf
    else if c = 92 then
      match rest with
      | [] => none
      | e :: rest2 =>
        if e = 92 ∨ e = 34 then parse_string_loop (buf ++ [e]) rest2
        else if e = 110 then parse_string_loop (buf ++ [10]) rest2
        else none
    else parse_string_loop (buf ++ [c]) rest

/-- C `parse_string` (src/lisp.c:111), called after the opening `"` has
been consumed; yields the byte payload of the resulting string cell. -/
def parse_string (input : List Nat) : Option (List Nat) :=
  parse_string_loop [] input

/-- The cell `extend` allocates for a binding: a two-element List
`[sym, val]`. -/
def pairCell (s v : Nat) : Sexpr_t :=
  { type := Sexpr_e.S_LIST, len := 2, list := [s, v] }

/-- A cell with its mark bit cleared, for stating that the collector
touches nothing but mark bits. -/
def unmarkCell (c : Sexpr_t) : Sexpr_t :=
  { c with gcmark := false }

/-- Concrete store for the `-` primitive: cell 1 is the argument list
`(5 2)`, cells 2 and 3 the Integer arguments. -/
def subExample : LState :=
  { store := [{ type := Sexpr_e.S_NIL },
              { type := Sexpr_e.S_LIST, len := 2, list := [2, 3] },
              { type := Sexpr_e.S_INTEGER, integer := 5 },
              { type := Sexpr_e.S_INTEGER, integer := 2 }],
    nilA := 0, teeA := 0, sIf := 0, sLambda := 0, sBegin := 0, sDefine := 0,
    sSet := 0, sQuote := 0, global := 0, env := 0 }

/-- Concrete store for `car`: cell 1 is the argument list holding the
empty List (cell 2); cell 3 is a singleton List and cell 4 an argument
list holding it. -/
def carExample : LState :=
  { store := [{ type := Sexpr_e.S_NIL },
              { type := Sexpr_e.S_LIST, len := 1, list := [2] },
              { type := Sexpr_e.S_LIST, len := 0, list := [] },
              { type := Sexpr_e.S_LIST, len := 1, list := [0] },
              { type := Sexpr_e.S_LIST, len := 1, list := [3] }],
    nilA := 0, teeA := 0, sIf := 0, sLambda := 0, sBegin := 0, sDefine := 0,
    sSet := 0, sQuote := 0, global := 0, env := 0 }

/-- Concrete store for `nth`: cell 1 is the argument list `(2 (a b))`
and cell 4 the argument list `(3 (a b))`, over the two-element List at
cell 3. -/
def nthExample : LState :=
  { store := [{ type := Sexpr_e.S_NIL },
              { type := Sexpr_e.S_LIST, len := 2, list := [2, 3] },
              { type := Sexpr_e.S_INTEGER, integer := 2 },
              { type := Sexpr_e.S_LIST, len := 2, list := [5, 6] },
              { type := Sexpr_e.S_LIST, len := 2, list := [7, 3] },
              { type := Sexpr_e.S_SYMBOL, symbol := "a", len := 1 },
              { type := Sexpr_e.S_SYMBOL, symbol := "b", len := 1 },
              { type := Sexpr_e.S_INTEGER, integer := 3 }],
    nilA := 0, teeA := 0, sIf := 0, sLambda := 0, sBegin := 0, sDefine := 0,
    sSet := 0, sQuote := 0, global := 0, env := 0 }

/-- Concrete store for the collector: the global environment (cell 0)
holds the binding pair at cell 2; the current environment (cell 1)
holds the binding pair at cell 3, which is not reachable from global. -/
def gcExample : LState :=
  { store := [{ type := Sexpr_e.S_LIST, len := 1, list := [2] },
              { type := Sexpr_e.S_LIST, len := 1, list := [3] },
              { type := Sexpr_e.S_LIST, len := 2, list := [4, 5] },
              { type := Sexpr_e.S_LIST, len := 2, list := [4, 6] },
              { type := Sexpr_e.S_SYMBOL, symbol := "x", len := 1 },
              { type := Sexpr_e.S_INTEGER, integer := 1 },
              { type := Sexpr_e.S_INTEGER, integer := 7 }],
    nilA := 0, teeA := 0, sIf := 0, sLambda := 0, sBegin := 0, sDefine := 0,
    sSet := 0, sQuote := 0, global := 0, env := 1 }

/-- Concrete store for `apply`: cell 5 is a Proc whose parameter list
(cell 4) holds one Symbol (cell 1), whose body is the Integer at cell 2
and whose captured environment is the empty List at cell 3; cell 7 is
the one-element argument list holding the Integer at cell 6. -/
def applyExample : LState :=
  { store := [{ type := Sexpr_e.S_NIL },
              { type := Sexpr_e.S_SYMBOL, symbol := "p", len := 1 },
              { type := Sexpr_e.S_INTEGER, integer := 9 },
              { type := Sexpr_e.S_LIST, len := 0, list := [] },
              { type := Sexpr_e.S_LIST, len := 1, list := [1] },
              { type := Sexpr_e.S_PROC, len := 3, list := [4, 2, 3] },
              { type := Sexpr_e.S_INTEGER, integer := 7 },
              { type := Sexpr_e.S_LIST, len := 1, list := [6] }],
    nilA := 0, teeA := 0, sIf := 0, sLambda := 0, sBegin := 0, sDefine := 0,
    sSet := 0, sQuote := 0, global := 0, env := 0 }

/-- Concrete store for `apply` on a Proc with no parameters: cell 5 is
a Proc with empty parameter list (cell 2), Symbol body `t` (cell 3) and
captured environment cell 4 binding nothing; the global environment
(cell 1) binds `t` (pair at cell 6) to the Tee singleton (cell 7). -/
def emptyProcExample : LState :=
  { store := [{ type := Sexpr_e.S_NIL },
              { type := Sexpr_e.S_LIST, len := 1, list := [6] },
              { type := Sexpr_e.S_LIST, len := 0, list := [] },
              { type := Sexpr_e.S_SYMBOL, symbol := "t", len := 1 },
              { type := Sexpr_e.S_LIST, len := 1, list := [8] },
              { type := Sexpr_e.S_PROC, len := 3, list := [2, 3, 4] },
              { type := Sexpr_e.S_LIST, len := 2, list := [3, 7] },
              { type := Sexpr_e.S_TEE },
              { type := Sexpr_e.S_LIST, len := 2, list := [3, 0] },
              { type := Sexpr_e.S_LIST, len := 0, list := [] }],
    nilA := 0, teeA := 7, sIf := 0, sLambda := 0, sBegin := 0, sDefine := 0,
    sSet := 0, sQuote := 0, global := 1, env := 0 }

/-- Concrete store for the `if` form with the head symbol rebound: the
global environment (cell 3) interns `if` (marker cell 2, pair cell 4),
but the current environment (cell 5) rebinds the name `if` (pair cell 6)
to the Tee singleton (cell 1); cell 12 is the form `(if 5 1 2)`. -/
def ifReboundExample : LState :=
  { store := [{ type := Sexpr_e.S_NIL },
              { type := Sexpr_e.S_TEE },
              { type := Sexpr_e.S_SYMBOL, symbol := "if", len := 2 },
              { type := Sexpr_e.S_LIST, len := 1, list := [4] },
              { type := Sexpr_e.S_LIST, len := 2, list := [2, 2] },
              { type := Sexpr_e.S_LIST, len := 1, list := [6] },
              { type := Sexpr_e.S_LIST, len := 2, list := [7, 1] },
              { type := Sexpr_e.S_SYMBOL, symbol := "if", len := 2 },
              { type := Sexpr_e.S_NIL },
              { type := Sexpr_e.S_INTEGER, integer := 5 },
              { type := Sexpr_e.S_INTEGER, integer := 1 },
              { type := Sexpr_e.S_INTEGER, integer := 2 },
              { type := Sexpr_e.S_LIST, len := 4, list := [7, 9, 10, 11] }],
    nilA := 0, teeA := 1, sIf := 2, sLambda := 2, sBegin := 2, sDefine := 2,
    sSet := 2, sQuote := 2, global := 3, env := 5 }

/-- Concrete store for the `if` form resolved normally: global (cell 3)
interns `if` (marker 2, pair 4); the current environment (cell 5) is
empty; cell 12 is the form `(if 5 1 2)` with head symbol cell 7. -/
def ifGoodExample : LState :=
  { store := [{ type := Sexpr_e.S_NIL },
              { type := Sexpr_e.S_TEE },
              { type := Sexpr_e.S_SYMBOL, symbol := "if", len := 2 },
              { type := Sexpr_e.S_LIST, len := 1, list := [4] },
              { type := Sexpr_e.S_LIST, len := 2, list := [2, 2] },
              { type := Sexpr_e.S_LIST, len := 0, list := [] },
              { type := Sexpr_e.S_NIL },
              { type := Sexpr_e.S_SYMBOL, symbol := "if", len := 2 },
              { type := Sexpr_e.S_NIL },
              { type := Sexpr_e.S_INTEGER, integer := 5 },
              { type := Sexpr_e.S_INTEGER, integer := 1 },
              { type := Sexpr_e.S_INTEGER, integer := 2 },
              { type := Sexpr_e.S_LIST, len := 4, list := [7, 9, 10, 11] }],
    nilA := 0, teeA := 1, sIf := 2, sLambda := 2, sBegin := 2, sDefine := 2,
    sSet := 2, sQuote := 2, global := 3, env := 5 }

/-- Concrete store for the `define` form: global (cell 1) interns
`define` (marker 3, pair 2); the current environment (cell 4) is empty;
cell 8 is the form `(define foo 42)` with head symbol cell 5, name cell
6, value expression cell 7. -/
def defineExample : LState :=
  { store := [{ type := Sexpr_e.S_NIL },
              { type := Sexpr_e.S_LIST, len := 1, list := [2] },
              { type := Sexpr_e.S_LIST, len := 2, list := [3, 3] },
              { type := Sexpr_e.S_SYMBOL, symbol := "define", len := 6 },
              { type := Sexpr_e.S_LIST, len := 0, list := [] },
              { type := Sexpr_e.S_SYMBOL, symbol := "define", len := 6 },
              { type := Sexpr_e.S_SYMBOL, symbol := "foo", len := 3 },
              { type := Sexpr_e.S_INTEGER, integer := 42 },
              { type := Sexpr_e.S_LIST, len := 3, list := [5, 6, 7] }],
    nilA := 0, teeA := 0, sIf := 9, sLambda := 9, sBegin := 9, sDefine := 3,
    sSet := 9, sQuote := 9, global := 1, env := 4 }

/-- Concrete store for the `/` primitive: cell 1 is the argument list
`(10 0)`. -/
def divExample : LState :=
  { store := [{ type := Sexpr_e.S_NIL },
              { type := Sexpr_e.S_LIST, len := 2, list := [2, 3] },
              { type := Sexpr_e.S_INTEGER, integer := 10 },
              { type := Sexpr_e.S_INTEGER, integer := 0 }],
    nilA := 0, teeA := 0, sIf := 0, sLambda := 0, sBegin := 0, sDefine := 0,
    sSet := 0, sQuote := 0, global := 0, env := 0 }

/-! Store frame lemmas. -/

theorem cellAt_setCell_self (st : LState) (a : Nat) (c : Sexpr_t)
    (h : a < st.store.length) : cellAt (setCell st a c) a = c := by
  simp [cellAt, setCell, List.getD_eq_getElem?_getD, List.getElem?_set_self h]

theorem cellAt_setCell_ne (st : LState) (a b : Nat) (c : Sexpr_t)
    (h : a ≠ b) : cellAt (setCell st a c) b = cellAt st b := by
  simp [cellAt, setCell, List.getD_eq_getElem?_getD, List.getElem?_set_ne h]

theorem store_length_setCell (st : LState) (a : Nat) (c : Sexpr_t) :
    (setCell st a c).store.length = st.store.length := by
  simp [setCell]

theorem cellAt_alloc_old (st : LState) (c : Sexpr_t) (b : Nat)
    (h : b < st.store.length) : cellAt (alloc st c).1 b = cellAt st b := by
  simp [cellAt, alloc, List.getD_eq_getElem?_getD, List.getElem?_append, h]

theorem cellAt_alloc_new (st : LState) (c : Sexpr_t) :
    cellAt (alloc st c).1 st.store.length = c := by
  simp [cellAt, alloc, List.getD_eq_getElem?_getD,
    List.getElem?_append_right (Nat.le_refl _)]

theorem store_length_alloc (st : LState) (c : Sexpr_t) :
    (alloc st c).1.store.length = st.store.length + 1 := by
  simp [alloc]

theorem cellAt_of_length_le (st : LState) (b : Nat)
    (h : st.store.length ≤ b) : cellAt st b = defaultCell := by
  simp [cellAt, List.getD_eq_getElem?_getD, List.getElem?_eq_none h]

/-! Behaviour of `extend`: it allocates exactly the pair cell (at the
old store length), rewrites only that cell and the environment cell,
and returns the value. -/

theorem extend_snd (sym val env : Nat) (st : LState) :
    (extend sym val env st).2 = val := rfl

theorem extend_length (sym val env : Nat) (st : LState) :
    (extend sym val env st).1.store.length = st.store.length + 1 := by
  simp [extend, append, mkobj, store_length_setCell, store_length_alloc]

theorem extend_fields (sym val env : Nat) (st : LState) :
    (extend sym val env st).1.nilA = st.nilA ∧ (extend sym val env st).1.teeA = st.teeA ∧
    (extend sym val env st).1.global = st.global ∧ (extend sym val env st).1.env = st.env ∧
    (extend sym val env st).1.diags = st.diags ∧ (extend sym val env st).1.outs = st.outs ∧
    (extend sym val env st).1.sIf = st.sIf ∧ (extend sym val env st).1.sBegin = st.sBegin ∧
    (extend sym val env st).1.sQuote = st.sQuote ∧ (extend sym val env st).1.sSet = st.sSet ∧
    (extend sym val env st).1.sDefine = st.sDefine ∧
    (extend sym val env st).1.sLambda = st.sLambda :=
  ⟨rfl, rfl, rfl, rfl, rfl, rfl, rfl, rfl, rfl, rfl, rfl, rfl⟩

theorem alloc_snd (st : LState) (c : Sexpr_t) : (alloc st c).2 = st.store.length := rfl

theorem mkobj_snd (ty : Sexpr_e) (st : LState) : (mkobj ty st).2 = st.store.length := rfl

theorem mkobj_fst (ty : Sexpr_e) (st : LState) :
    (mkobj ty st).1 = (alloc st { type := ty }).1 := rfl

theorem append_length (lst child : Nat) (st : LState) :
    (append lst child st).store.length = st.store.length := by
  simp [append, store_length_setCell]

theorem append_cellAt_self (lst child : Nat) (st : LState)
    (h : lst < st.store.length) :
    cellAt (append lst child st) lst =
      { cellAt st lst with
          list := (cellAt st lst).list ++ [child], len := (cellAt st lst).len + 1 } := by
  simp only [append]
  exact cellAt_setCell_self _ _ _ h

theorem append_cellAt_ne (lst child b : Nat) (st : LState)
    (h : lst ≠ b) : cellAt (append lst child st) b = cellAt st b := by
  simp only [append]
  exact cellAt_setCell_ne _ _ _ _ h

theorem extend_unfold (sym val env : Nat) (st : LState) :
    (extend sym val env st).1 =
      append env st.store.length
        (append st.store.length val
          (append st.store.length sym (alloc st { type := Sexpr_e.S_LIST }).1)) := rfl

theorem extend_pair_cell (sym val env : Nat) (st : LState)
    (henv : env < st.store.length) :
    cellAt (extend sym val env st).1 st.store.length = pairCell sym val := by
  have hne : env ≠ st.store.length := Nat.ne_of_lt henv
  rw [extend_unfold, append_cellAt_ne _ _ _ _ hne]
  have hl1 : st.store.length <
      (append st.store.length sym (alloc st { type := Sexpr_e.S_LIST }).1).store.length := by
    rw [append_length, store_length_alloc]; omega
  rw [append_cellAt_self _ _ _ hl1]
  have hl0 : st.store.length < ((alloc st { type := Sexpr_e.S_LIST }).1).store.length := by
    rw [store_length_alloc]; omega
  rw [append_cellAt_self _ _ _ hl0, cellAt_alloc_new]
  simp [pairCell]

theorem extend_env_cell (sym val env : Nat) (st : LState)
    (henv : env < st.store.length) :
    cellAt (extend sym val env st).1 env =
      { cellAt st env with
          list := (cellAt st env).list ++ [st.store.length],
          len := (cellAt st env).len + 1 } := by
  have hne : st.store.length ≠ env := Ne.symm (Nat.ne_of_lt henv)
  rw [extend_unfold]
  have henv2 : env <
      (append st.store.length val
        (append st.store.length sym (alloc st { type := Sexpr_e.S_LIST }).1)).store.length := by
    rw [append_length, append_length, store_length_alloc]
    exact Nat.lt_succ_of_lt henv
  rw [append_cellAt_self _ _ _ henv2, append_cellAt_ne _ _ _ _ hne,
    append_cellAt_ne _ _ _ _ hne, cellAt_alloc_old _ _ _ henv]

theorem extend_frame (sym val env : Nat) (st : LState) (b : Nat)
    (hb1 : b ≠ env) (hb2 : b ≠ st.store.length) :
    cellAt (extend sym val env st).1 b = cellAt st b := by
  rw [extend_unfold, append_cellAt_ne _ _ _ _ (Ne.symm hb1),
    append_cellAt_ne _ _ _ _ (Ne.symm hb2), append_cellAt_ne _ _ _ _ (Ne.symm hb2)]
  rcases Nat.lt_or_ge b st.store.length with h | h
  · exact cellAt_alloc_old _ _ _ h
  · have hgt : st.store.length < b := Nat.lt_of_le_of_ne h (Ne.symm hb2)
    rw [cellAt_of_length_le _ _ (by rw [store_length_alloc]; omega),
      cellAt_of_length_le _ _ (Nat.le_of_lt hgt)]

theorem range_map_add (L k : Nat) :
    (List.range (k + 1)).map (fun j => L + j) =
      L :: (List.range k).map (fun j => L + 1 + j) := by
  rw [List.range_succ_eq_map, List.map_cons, List.map_map]
  have h : ((fun j => L + j) ∘ Nat.succ) = (fun j => L + 1 + j) := by
    funext j
    simp [Function.comp]
    omega
  rw [h, Nat.add_zero]

/-- One `extend` per listed index: the loop of `extensions` grows the
store by one pair cell per index (at consecutive addresses from the old
store length), appends exactly those pair addresses to the environment
cell, leaves every other old cell untouched, and each new pair cell is
`[syms[i], vals[i]]` for its index `i`. -/
theorem extensionsLoop_spec (env syms vals : Nat) :
    ∀ (is : List Nat) (st : LState),
      env < st.store.length → syms ≠ env → vals ≠ env →
      syms < st.store.length → vals < st.store.length →
      (extensionsLoop env syms vals is st).store.length = st.store.length + is.length
      ∧ (cellAt (extensionsLoop env syms vals is st) env).list =
          (cellAt st env).list ++ (List.range is.length).map (fun j => st.store.length + j)
      ∧ (cellAt (extensionsLoop env syms vals is st) env).len =
          (cellAt st env).len + is.length
      ∧ (∀ b, b ≠ env → b < st.store.length →
          cellAt (extensionsLoop env syms vals is st) b = cellAt st b)
      ∧ (∀ j, j < is.length →
          cellAt (extensionsLoop env syms vals is st) (st.store.length + j) =
            pairCell ((cellAt st syms).list.getD (is.getD j 0) 0)
              ((cellAt st vals).list.getD (is.getD j 0) 0))
  | [], st => by
    intro henv hs hv hsl hvl
    refine ⟨by simp [extensionsLoop], by simp [extensionsLoop], by simp [extensionsLoop],
      fun b hb hbl => by simp [extensionsLoop], fun j hj => absurd hj (by simp)⟩
  | i :: rest, st => by
    intro henv hs hv hsl hvl
    have hloop : extensionsLoop env syms vals (i :: rest) st =
        extensionsLoop env syms vals rest
          (extend ((cellAt st syms).list.getD i 0) ((cellAt st vals).list.getD i 0) env st).1 :=
      rfl
    set s_i := (cellAt st syms).list.getD i 0 with hsidef
    set v_i := (cellAt st vals).list.getD i 0 with hvidef
    set st' := (extend s_i v_i env st).1 with hstdef
    have hlen' : st'.store.length = st.store.length + 1 := extend_length _ _ _ _
    have henv' : env < st'.store.length := by omega
    have hsl' : syms < st'.store.length := by omega
    have hvl' : vals < st'.store.length := by omega
    obtain ⟨iha, ihb, ihc, ihd, ihe⟩ :=
      extensionsLoop_spec env syms vals rest st' henv' hs hv hsl' hvl'
    have hsyms' : cellAt st' syms = cellAt st syms :=
      extend_frame _ _ _ _ _ hs (Nat.ne_of_lt hsl)
    have hvals' : cellAt st' vals = cellAt st vals :=
      extend_frame _ _ _ _ _ hv (Nat.ne_of_lt hvl)
    have henvcell : cellAt st' env =
        { cellAt st env with
            list := (cellAt st env).list ++ [st.store.length],
            len := (cellAt st env).len + 1 } := extend_env_cell _ _ _ _ henv
    refine ⟨?_, ?_, ?_, ?_, ?_⟩
    · rw [hloop, iha, hlen']
      simp [List.length_cons]
      omega
    · rw [hloop, ihb, henvcell, hlen']
      simp only [List.length_cons, List.append_assoc]
      rw [range_map_add]
      rfl
    · rw [hloop, ihc, henvcell]
      simp only [List.length_cons]
      omega
    · intro b hb hbl
      rw [hloop, ihd b hb (by omega), extend_frame _ _ _ _ _ hb (Nat.ne_of_lt hbl)]
    · intro j hj
      match j with
      | 0 =>
        have hfr : cellAt (extensionsLoop env syms vals rest st') st.store.length =
            cellAt st' st.store.length :=
          ihd st.store.length (Nat.ne_of_gt henv) (by omega)
        rw [hloop, Nat.add_zero, hfr, extend_pair_cell _ _ _ _ henv]
        rfl
      | j' + 1 =>
        have haddr : st.store.length + (j' + 1) = st'.store.length + j' := by omega
        have hj' : j' < rest.length := by simpa [List.length_cons] using hj
        rw [hloop, haddr, ihe j' hj', hsyms', hvals']
        rfl

theorem range_getD (m j : Nat) (h : j < m) : (List.range m).getD j 0 = j := by
  rw [List.getD_eq_getElem?_getD, List.getElem?_range h]
  rfl

/-- Specification of `extensions` on a non-empty value list: it returns
the environment address itself (no new environment cell), allocates the
`syms->len` binding pairs at consecutive addresses, appends exactly
their addresses to the environment cell in place, and leaves every
other existing cell untouched. -/
theorem extensions_spec (env syms vals : Nat) (st : LState) (m : Nat)
    (hm : (cellAt st syms).len = m)
    (hv0 : (cellAt st vals).len ≠ 0)
    (henv : env < st.store.length) (hs : syms ≠ env) (hv : vals ≠ env)
    (hsl : syms < st.store.length) (hvl : vals < st.store.length) :
    (extensions env syms vals st).2 = env
    ∧ (extensions env syms vals st).1.store.length = st.store.length + m
    ∧ (cellAt (extensions env syms vals st).1 env).list =
        (cellAt st env).list ++ (List.range m).map (fun j => st.store.length + j)
    ∧ (cellAt (extensions env syms vals st).1 env).len = (cellAt st env).len + m
    ∧ (∀ b, b ≠ env → b < st.store.length →
        cellAt (extensions env syms vals st).1 b = cellAt st b)
    ∧ (∀ j, j < m →
        cellAt (extensions env syms vals st).1 (st.store.length + j) =
          pairCell ((cellAt st syms).list.getD j 0) ((cellAt st vals).list.getD j 0)) := by
  have hunf : extensions env syms vals st =
      (extensionsLoop env syms vals (List.range (cellAt st syms).len) st, env) := by
    simp [extensions, hv0]
  obtain ⟨ha, hb, hc, hd, he⟩ :=
    extensionsLoop_spec env syms vals (List.range (cellAt st syms).len) st henv hs hv hsl hvl
  rw [hm] at ha hb hc hd he hunf
  simp only [List.length_range] at ha hb hc he
  refine ⟨by rw [hunf], by rw [hunf]; exact ha, by rw [hunf]; exact hb,
    by rw [hunf]; exact hc, fun b h1 h2 => by rw [hunf]; exact hd b h1 h2,
    fun j hj => by rw [hunf]; have := he j hj; rwa [range_getD m j hj] at this⟩

/-! Claim theorems. -/

/-- C2: the claim says `-`, `*` and `/` leave the Integer cells passed
as arguments unchanged.  The code of `primop_sub` allocates a fresh
result cell, immediately abandons it (`nx = NTH(args, 0)`), and
subtracts into the first argument cell in place: on the argument list
`(5 2)` it returns the first argument cell itself (address 2) and that
cell's integer has become 3. -/
theorem primop_sub_mutates_first_arg :
    (cellAt subExample 2).integer = 5
    ∧ (primop_sub 1 subExample).2 = 2
    ∧ (cellAt (primop_sub 1 subExample).1 2).integer = 3 := by
  decide

/-- C7: on an argument list holding one empty List, `primop_car`
executes `CAR(a1)` — a read of slot 0 of a zero-length element array
(a NULL dereference in C, the poison `none` here) — instead of
returning the nil singleton; on a one-element List it does return the
first element. -/
theorem primop_car_empty_list_oob :
    primop_car 1 carExample = none
    ∧ primop_car 4 carExample = some (carExample, 0) := by
  decide

/-- C9: the bounds check of `primop_nth` is `(size_t)i > a2->len`, so
the adjusted index `i = len` (input `(nth 2 (a b))`) escapes it and
slot `len` of the element array is read — one past the end, the poison
`none` — while `i = len + 1` (input `(nth 3 (a b))`) is caught and
yields the nil singleton. -/
theorem primop_nth_index_len_oob :
    primop_nth 1 nthExample = none
    ∧ primop_nth 4 nthExample = some (nthExample, 0) := by
  decide

/-- C8 counterexample: the claim maps `\t` to tab, `\(` to `(`, `\)` to
`)` and `\ooo` to the octal byte, but the reader of `src/lisp.c`
rejects every escape except `\\`, `\"` and `\n`: parsing the string
bodies `\t"`, `\("`, `\)"` and `\042"` all fail where the claim
demands `[9]`, `[40]`, `[41]` and `[34]`, while `\n"` does give `[10]`. -/
theorem parse_string_counterexample :
    parse_string [92, 116, 34] = none
    ∧ parse_string [92, 40, 34] = none
    ∧ parse_string [92, 41, 34] = none
    ∧ parse_string [92, 48, 52, 50, 34] = none
    ∧ parse_string [92, 110, 34] = some [10] := by
  decide

/-- C1 counterexample: in `gcExample` the pair cell 3 is referenced
from the current environment (`env`, cell 1) but not from the global
environment; after the mark phase of `lisp_clean` (which calls
`gc_mark(l->global)` only) it is unmarked — the mark phase does not
treat `env` (nor anything reachable only from it) as a root, while the
global environment and its pair are marked. -/
theorem lisp_clean_env_not_a_root :
    (cellAt gcExample gcExample.env).list = [3]
    ∧ (cellAt (lisp_clean 10 gcExample) 3).gcmark = false
    ∧ (cellAt (lisp_clean 10 gcExample) 1).gcmark = false
    ∧ (cellAt (lisp_clean 10 gcExample) gcExample.global).gcmark = true
    ∧ (cellAt (lisp_clean 10 gcExample) 2).gcmark = true := by
  decide

theorem cellAt_setCell (st : LState) (a b : Nat) (c : Sexpr_t) :
    cellAt (setCell st a c) b =
      if a = b ∧ a < st.store.length then c else cellAt st b := by
  simp only [cellAt, setCell, List.getD_eq_getElem?_getD, List.getElem?_set]
  rcases Decidable.em (a = b) with h | h
  · subst h
    rcases Decidable.em (a < st.store.length) with h2 | h2
    · simp [h2]
    · simp [h2, List.getElem?_eq_none (Nat.le_of_not_lt h2)]
  · simp [h]

/-- C3 counterexample: applying the Proc at cell 5 (one parameter, one
argument) appends the binding pair (allocated at cell 8) to the Proc's
captured environment cell 3 itself — after the application the captured
environment cell, empty before, holds that pair: it is mutated in
place, and no new environment cell is built for the bindings. -/
theorem apply_mutates_captured_env :
    (cellAt applyExample 3).len = 0
    ∧ (cellAt applyExample 3).list = []
    ∧ (apply 2 5 7 applyExample).map (fun r => (cellAt r.1 3).len) = some 1
    ∧ (apply 2 5 7 applyExample).map (fun r => (cellAt r.1 3).list) = some [8]
    ∧ (apply 2 5 7 applyExample).map (fun r => cellAt r.1 8) = some (pairCell 1 6) := by
  decide

/-- C3 amended: for a Proc whose parameter count equals the (non-zero)
argument count, `apply` evaluates the body in the Proc's captured
environment itself, after `extensions` has extended that environment
cell in place with the zipped parameter/argument pairs (freshly
allocated at consecutive addresses); every other existing cell is
untouched, but the captured environment cell is changed. -/
theorem apply_extends_captured_env_in_place
    (n proc args pa pc pe m : Nat) (st : LState)
    (hty : (cellAt st proc).type = Sexpr_e.S_PROC)
    (h0 : (cellAt st proc).list.getD 0 0 = pa)
    (h1 : (cellAt st proc).list.getD 1 0 = pc)
    (h2 : (cellAt st proc).list.getD 2 0 = pe)
    (hm : (cellAt st pa).len = m)
    (ha : (cellAt st args).len = m)
    (hm0 : m ≠ 0)
    (henv : pe < st.store.length)
    (hpl : pa < st.store.length) (hal : args < st.store.length)
    (hsne : pa ≠ pe) (hvne : args ≠ pe) (hprocne : proc ≠ pe)
    (hprocl : proc < st.store.length) :
    apply n proc args st = lisp_eval n pc pe (extensions pe pa args st).1
    ∧ (cellAt (extensions pe pa args st).1 pe).list =
        (cellAt st pe).list ++ (List.range m).map (fun j => st.store.length + j)
    ∧ (cellAt (extensions pe pa args st).1 pe).len = (cellAt st pe).len + m
    ∧ (∀ b, b ≠ pe → b < st.store.length →
        cellAt (extensions pe pa args st).1 b = cellAt st b)
    ∧ (∀ j, j < m →
        cellAt (extensions pe pa args st).1 (st.store.length + j) =
          pairCell ((cellAt st pa).list.getD j 0) ((cellAt st args).list.getD j 0)) := by
  have hv0 : (cellAt st args).len ≠ 0 := by rw [ha]; exact hm0
  obtain ⟨e1, e2, e3, e4, e5, e6⟩ :=
    extensions_spec pe pa args st m hm hv0 henv hsne hvne hpl hal
  refine ⟨?_, e3, e4, e5, e6⟩
  have hproccell : cellAt (extensions pe pa args st).1 proc = cellAt st proc :=
    e5 proc hprocne hprocl
  have hlen2 : (cellAt st ((cellAt st proc).list.getD 0 0)).len = m := by rw [h0, hm]
  simp only [apply, applyF, hty, h0, h2, ha, hlen2, hm]
  simp only [ne_eq, not_true_eq_false, if_false, reduceCtorEq, if_true, ite_false, ite_true]
  rw [e1, hproccell, h1]

/-- C10: applying a Proc with an empty parameter list to an empty
argument list makes `extensions` return the nil singleton without
touching the captured environment, so the body is evaluated with `nil`
as its environment; and `find` on the nil environment (whose cell is
not a List) always falls through to `dofind` on the global environment,
so the captured environment is never consulted. -/
theorem apply_empty_params (n proc args : Nat) (st : LState)
    (hty : (cellAt st proc).type = Sexpr_e.S_PROC)
    (hpa : (cellAt st ((cellAt st proc).list.getD 0 0)).len = 0)
    (hargs : (cellAt st args).len = 0) :
    apply n proc args st = lisp_eval n ((cellAt st proc).list.getD 1 0) st.nilA st
    ∧ (∀ (st2 : LState) (x : Nat), (cellAt st2 st.nilA).type ≠ Sexpr_e.S_LIST →
        find st2 st.nilA x = dofind st2 st2.global x) := by
  constructor
  · simp only [apply, applyF, hty, hargs, hpa, extensions]
    simp
  · intro st2 x h
    simp only [find, dofind]
    rw [if_pos (Or.inl h), if_pos rfl]

theorem sizeT_zero : sizeT 0 = 0 := by decide

theorem wrap32_zero : wrap32 0 = 0 := by decide

theorem setCell_fields (st : LState) (a : Nat) (c : Sexpr_t) :
    (setCell st a c).nilA = st.nilA ∧ (setCell st a c).diags = st.diags :=
  ⟨rfl, rfl⟩

/-- Every division step of `primop_div` preserves each cell's tag and
list payload (only the first argument cell's integer is rewritten), and
a zero that sits in the mutated cell stays zero, because dividing a
zero numerator yields zero. -/
theorem divStep_cells (st : LState) (nx : Nat) (z : Int) (b : Nat) :
    (cellAt (setCell st nx { cellAt st nx with integer := z }) b).type = (cellAt st b).type
    ∧ (cellAt (setCell st nx { cellAt st nx with integer := z }) b).list =
        (cellAt st b).list := by
  rw [cellAt_setCell]
  rcases Decidable.em (nx = b ∧ nx < st.store.length) with h | h
  · rw [if_pos h, h.1]
    exact ⟨rfl, rfl⟩
  · rw [if_neg h]
    exact ⟨rfl, rfl⟩

/-- Loop of `primop_div`: if some listed index holds a cell whose
integer is zero, the loop stops at the first zero `size_t` divisor,
emits the "div: 0/" diagnostic and returns the nil sentinel — no
division by zero (the `udiv64` poison) is performed. -/
theorem divLoop_zero (nx args : Nat) :
    ∀ (is : List Nat) (st : LState),
      (∀ i ∈ is, (cellAt st ((cellAt st args).list.getD i 0)).type = Sexpr_e.S_INTEGER) →
      (∃ i ∈ is, (cellAt st ((cellAt st args).list.getD i 0)).integer = 0) →
      ∃ stf, divLoop nx args is st = some (stf, st.nilA)
        ∧ stf.diags = "div: 0/" :: st.diags
  | [], st, _, hz => absurd hz (by simp)
  | i :: rest, st, hint, hz => by
    have hai : (cellAt st ((cellAt st args).list.getD i 0)).type = Sexpr_e.S_INTEGER :=
      hint i (by simp)
    have hc1 : ¬ ((cellAt st ((cellAt st args).list.getD i 0)).type ≠ Sexpr_e.S_INTEGER) := by
      rw [hai]
      simp
    by_cases h0 : sizeT (cellAt st ((cellAt st args).list.getD i 0)).integer = 0
    · refine ⟨sexpr_perror "div: 0/" st, ?_, rfl⟩
      simp only [divLoop]
      rw [if_neg hc1, if_neg (not_not_intro h0)]
    · obtain ⟨q, hq⟩ : ∃ q, udiv64 (sizeT (cellAt st nx).integer)
          (sizeT (cellAt st ((cellAt st args).list.getD i 0)).integer) = some q :=
        ⟨sizeT (cellAt st nx).integer /
            sizeT (cellAt st ((cellAt st args).list.getD i 0)).integer,
          by simp only [udiv64]; rw [if_neg h0]⟩
      have hq0 : (cellAt st nx).integer = 0 → q = 0 := by
        intro h
        rw [h, sizeT_zero] at hq
        simp [udiv64, h0] at hq
        omega
      set st' := setCell st nx { cellAt st nx with integer := wrap32 (Int.ofNat q) }
        with hstdef
      have hzkeep : ∀ b, (cellAt st b).integer = 0 → (cellAt st' b).integer = 0 := by
        intro b hb
        rw [hstdef, cellAt_setCell]
        rcases Decidable.em (nx = b ∧ nx < st.store.length) with h | h
        · rw [if_pos h]
          have hq0v : q = 0 := hq0 (by rw [h.1]; exact hb)
          simp only [hq0v, Int.ofNat_zero]
          exact wrap32_zero
        · rw [if_neg h]
          exact hb
      have hint' : ∀ i' ∈ rest,
          (cellAt st' ((cellAt st' args).list.getD i' 0)).type = Sexpr_e.S_INTEGER := by
        intro i' hmem
        rw [hstdef, (divStep_cells st nx _ args).2, (divStep_cells st nx _ _).1]
        exact hint i' (by simp [hmem])
      have hz' : ∃ i' ∈ rest,
          (cellAt st' ((cellAt st' args).list.getD i' 0)).integer = 0 := by
        obtain ⟨i0, hmem, hzero⟩ := hz
        have hi0 : i0 ∈ rest := by
          rcases List.mem_cons.mp hmem with h | h
          · exfalso
            rw [h] at hzero
            rw [hzero] at h0
            exact h0 sizeT_zero
          · exact h
        refine ⟨i0, hi0, ?_⟩
        rw [hstdef, (divStep_cells st nx _ args).2]
        exact hzkeep _ hzero
      obtain ⟨stf, hf1, hf2⟩ := divLoop_zero nx args rest st' hint' hz'
      refine ⟨stf, ?_, ?_⟩
      · have hgoal : divLoop nx args (i :: rest) st = divLoop nx args rest st' := by
          simp only [divLoop]
          rw [if_neg hc1, if_pos h0, hq]
        rw [hgoal, hf1]
        rfl
      · rw [hf2]
        rfl

/-- C6: for an argument list of Integer cells with a zero divisor
somewhere in its tail, `primop_div` diagnoses "div: 0/" (exactly one
diagnostic line) and returns the nil singleton, and no division by
zero is performed — the result is `some`, never the `udiv64` poison. -/
theorem primop_div_zero_divisor (args : Nat) (st : LState)
    (hal : args < st.store.length)
    (hlen : (cellAt st args).len = (cellAt st args).list.length)
    (hints : ∀ a ∈ (cellAt st args).list, (cellAt st a).type = Sexpr_e.S_INTEGER)
    (hzero : ∃ j, 1 ≤ j ∧ j < (cellAt st args).len ∧
        (cellAt st ((cellAt st args).list.getD j 0)).integer = 0) :
    ∃ stf, primop_div args st = some (stf, st.nilA)
      ∧ stf.diags = "div: 0/" :: st.diags := by
  obtain ⟨j, hj1, hj2, hj3⟩ := hzero
  -- every listed address is a live Integer cell, hence below the store length
  have hlt : ∀ a ∈ (cellAt st args).list, a < st.store.length := by
    intro a hmem
    by_contra hge
    have := cellAt_of_length_le st a (Nat.le_of_not_lt hge)
    have h2 := hints a hmem
    rw [this] at h2
    exact absurd h2 (by decide)
  set st1 := (mkobj Sexpr_e.S_INTEGER st).1 with hst1
  have hargs1 : cellAt st1 args = cellAt st args := cellAt_alloc_old st _ args hal
  have hframe : ∀ a ∈ (cellAt st args).list, cellAt st1 a = cellAt st a := by
    intro a hmem
    exact cellAt_alloc_old st _ a (hlt a hmem)
  have hlen0 : (cellAt st args).len ≠ 0 := by omega
  have hn0 : (cellAt st args).list.getD 0 0 ∈ (cellAt st args).list := by
    have hpos : 0 < (cellAt st args).list.length := by omega
    rw [List.getD_eq_getElem?_getD, List.getElem?_eq_getElem hpos]
    exact List.getElem_mem hpos
  have hnx : (cellAt st1 ((cellAt st1 args).list.getD 0 0)).type = Sexpr_e.S_INTEGER := by
    rw [hargs1, hframe _ hn0]
    exact hints _ hn0
  have hji : ∀ i, i < (cellAt st args).len →
      (cellAt st args).list.getD i 0 ∈ (cellAt st args).list := by
    intro i hi
    have hpos : i < (cellAt st args).list.length := by omega
    rw [List.getD_eq_getElem?_getD, List.getElem?_eq_getElem hpos]
    exact List.getElem_mem hpos
  have hint : ∀ i ∈ (List.range (cellAt st1 args).len).drop 1,
      (cellAt st1 ((cellAt st1 args).list.getD i 0)).type = Sexpr_e.S_INTEGER := by
    intro i hmem
    have hirange : i ∈ List.range (cellAt st1 args).len := List.mem_of_mem_drop hmem
    have hi : i < (cellAt st args).len := by
      rw [hargs1] at hirange
      exact List.mem_range.mp hirange
    rw [hargs1, hframe _ (hji i hi)]
    exact hints _ (hji i hi)
  have hz : ∃ i ∈ (List.range (cellAt st1 args).len).drop 1,
      (cellAt st1 ((cellAt st1 args).list.getD i 0)).integer = 0 := by
    refine ⟨j, ?_, ?_⟩
    · rw [hargs1]
      obtain ⟨k, hk⟩ : ∃ k, (cellAt st args).len = k + 1 :=
        ⟨(cellAt st args).len - 1, by omega⟩
      rw [hk, List.range_succ_eq_map, List.drop_one, List.tail_cons]
      obtain ⟨j', hj'⟩ : ∃ j', j = j' + 1 := ⟨j - 1, by omega⟩
      refine List.mem_map.mpr ⟨j', List.mem_range.mpr (by omega), by omega⟩
    · rw [hargs1, hframe _ (hji j hj2)]
      exact hj3
  have hmain : primop_div args st = divLoop ((cellAt st1 args).list.getD 0 0) args
      ((List.range (cellAt st1 args).len).drop 1) st1 := by
    simp only [primop_div]
    rw [← hst1]
    rw [if_neg (by rw [hargs1]; exact hlen0), if_neg (by rw [hnx]; simp)]
  obtain ⟨stf, hf1, hf2⟩ := divLoop_zero ((cellAt st1 args).list.getD 0 0) args
    ((List.range (cellAt st1 args).len).drop 1) st1 hint hz
  refine ⟨stf, ?_, ?_⟩
  · rw [hmain, hf1]
    rfl
  · rw [hf2]
    rfl

/-- Witness for C3 at the concrete Proc of `applyExample` (one
parameter, one argument). -/
theorem apply_extends_captured_env_in_place_witness :
    apply 2 5 7 applyExample = lisp_eval 2 2 3 (extensions 3 4 7 applyExample).1
    ∧ (cellAt (extensions 3 4 7 applyExample).1 3).list =
        (cellAt applyExample 3).list ++
          (List.range 1).map (fun j => applyExample.store.length + j)
    ∧ (cellAt (extensions 3 4 7 applyExample).1 3).len = (cellAt applyExample 3).len + 1
    ∧ (∀ b, b ≠ 3 → b < applyExample.store.length →
        cellAt (extensions 3 4 7 applyExample).1 b = cellAt applyExample b)
    ∧ (∀ j, j < 1 →
        cellAt (extensions 3 4 7 applyExample).1 (applyExample.store.length + j) =
          pairCell ((cellAt applyExample 4).list.getD j 0)
            ((cellAt applyExample 7).list.getD j 0)) :=
  apply_extends_captured_env_in_place 2 5 7 4 2 3 1 applyExample (by decide) (by decide)
    (by decide) (by decide) (by decide) (by decide) (by decide) (by decide) (by decide)
    (by decide) (by decide) (by decide) (by decide) (by decide)

/-- Witness for C10 at the concrete parameterless Proc of
`emptyProcExample`. -/
theorem apply_empty_params_witness :
    apply 2 5 9 emptyProcExample =
      lisp_eval 2 ((cellAt emptyProcExample 5).list.getD 1 0) emptyProcExample.nilA
        emptyProcExample
    ∧ (∀ (st2 : LState) (x : Nat),
        (cellAt st2 emptyProcExample.nilA).type ≠ Sexpr_e.S_LIST →
        find st2 emptyProcExample.nilA x = dofind st2 st2.global x) :=
  apply_empty_params 2 5 9 emptyProcExample (by decide) (by decide) (by decide)

/-- Witness for C6 at the concrete argument list `(10 0)`. -/
theorem primop_div_zero_divisor_witness :
    ∃ stf, primop_div 1 divExample = some (stf, divExample.nilA)
      ∧ stf.diags = "div: 0/" :: divExample.diags :=
  primop_div_zero_divisor 1 divExample (by decide) (by decide) (by decide)
    ⟨1, by decide, by decide, by decide⟩

/-- C5 counterexample: in `ifReboundExample` the current environment
rebinds the name `if`, so evaluating the four-element list
`(if 5 1 2)` does not return `eval(1)` although `eval(5)` is not the
nil singleton — the head resolves to the Tee cell, application fails
and the nil singleton comes back.  The claim's "every environment" is
false: the special form is found by evaluating the head symbol, which
any environment can shadow. -/
theorem if_rebound_counterexample :
    evalResult 3 9 5 ifReboundExample = some 9
    ∧ some (9 : Nat) ≠ some ifReboundExample.nilA
    ∧ evalResult 3 10 5 ifReboundExample = some 10
    ∧ evalResult 3 12 5 ifReboundExample = some ifReboundExample.nilA
    ∧ evalResult 3 12 5 ifReboundExample ≠ evalResult 3 10 5 ifReboundExample := by
  decide

/-- C5 amended: for a four-element list `(if test c a)` whose head
symbol evaluates to the interned `if` marker (as it does in any
environment that has not shadowed `if`), evaluation returns the
evaluation of `c` when the test's value is not the nil singleton and
the evaluation of `a` when it is, each in the state left by the test. -/
theorem if_dispatch (n x env : Nat) (st st1 st2 : LState) (tv : Nat)
    (h0 : (cellAt st x).type = Sexpr_e.S_LIST)
    (hl0 : (cellAt st x).len ≠ 0)
    (h2 : (cellAt st ((cellAt st x).list.getD 0 0)).type = Sexpr_e.S_SYMBOL)
    (h3 : lisp_eval n ((cellAt st x).list.getD 0 0) env st = some (st1, st1.sIf))
    (h4 : (cellAt st1 x).len = 4)
    (h5 : lisp_eval n ((cellAt st1 x).list.getD 1 0) env st1 = some (st2, tv)) :
    lisp_eval (n + 1) x env st =
      if tv = st2.nilA then lisp_eval n ((cellAt st2 x).list.getD 3 0) env st2
      else lisp_eval n ((cellAt st2 x).list.getD 2 0) env st2 := by
  rw [show n + 1 = Nat.succ n from rfl, lisp_eval.eq_2]
  simp only [h0]
  rw [if_neg hl0, if_pos h2, h3]
  simp only [Option.bind_eq_bind, Option.some_bind, if_true]
  rw [if_neg (by rw [h4]; simp), h5]
  simp only [Option.bind_eq_bind, Option.some_bind]

/-- Witness for C5 at the concrete form `(if 5 1 2)` of
`ifGoodExample` (test value: the Integer cell 9, not nil). -/
theorem if_dispatch_witness :
    lisp_eval 3 12 5 ifGoodExample =
      if (9 : Nat) = ifGoodExample.nilA then
        lisp_eval 2 ((cellAt ifGoodExample 12).list.getD 3 0) 5 ifGoodExample
      else lisp_eval 2 ((cellAt ifGoodExample 12).list.getD 2 0) 5 ifGoodExample :=
  if_dispatch 2 12 5 ifGoodExample ifGoodExample ifGoodExample 9 (by decide) (by decide)
    (by decide) (by decide) (by decide) (by decide)

/-- C4 counterexample: evaluating `(define foo 42)` in `defineExample`
extends the global environment with the pair cell 9 `[foo, 42]`, but
returns cell 7 — the evaluated value — not the new pair (cell 9):
`extend` returns `val`. -/
theorem define_returns_value_counterexample :
    evalResult 2 8 4 defineExample = some 7
    ∧ (lisp_eval 2 8 4 defineExample).map (fun r => (cellAt r.1 r.1.global).list) =
        some [2, 9]
    ∧ (lisp_eval 2 8 4 defineExample).map (fun r => cellAt r.1 9) = some (pairCell 6 7)
    ∧ (7 : Nat) ≠ 9 := by
  decide

/-- C4 amended: evaluating a three-element list `(define s v)` whose
head symbol evaluates to the interned `define` marker extends the
global environment with a freshly allocated pair `[s, eval(v)]` and
returns the evaluated value `eval(v)` (not the pair). -/
theorem define_extends_global (n x env : Nat) (st st1 st2 : LState) (v : Nat)
    (h0 : (cellAt st x).type = Sexpr_e.S_LIST)
    (hl0 : (cellAt st x).len ≠ 0)
    (h2 : (cellAt st ((cellAt st x).list.getD 0 0)).type = Sexpr_e.S_SYMBOL)
    (h3 : lisp_eval n ((cellAt st x).list.getD 0 0) env st = some (st1, st1.sDefine))
    (hd1 : st1.sDefine ≠ st1.sIf) (hd2 : st1.sDefine ≠ st1.sBegin)
    (hd3 : st1.sDefine ≠ st1.sQuote) (hd4 : st1.sDefine ≠ st1.sSet)
    (h4 : (cellAt st1 x).len = 3)
    (h5 : lisp_eval n ((cellAt st1 x).list.getD 2 0) env st1 = some (st2, v))
    (hg : st2.global < st2.store.length) :
    ∃ stf, lisp_eval (n + 1) x env st = some (stf, v)
      ∧ (cellAt stf st2.global).list = (cellAt st2 st2.global).list ++ [st2.store.length]
      ∧ (cellAt stf st2.global).len = (cellAt st2 st2.global).len + 1
      ∧ cellAt stf st2.store.length = pairCell ((cellAt st2 x).list.getD 1 0) v
      ∧ (∀ b, b ≠ st2.global → b ≠ st2.store.length → cellAt stf b = cellAt st2 b) := by
  refine ⟨(extend ((cellAt st2 x).list.getD 1 0) v st2.global st2).1, ?_, ?_, ?_, ?_, ?_⟩
  · rw [show n + 1 = Nat.succ n from rfl, lisp_eval.eq_2]
    simp only [h0]
    rw [if_neg hl0, if_pos h2, h3]
    simp only [Option.bind_eq_bind, Option.some_bind, if_true]
    rw [if_neg hd1, if_neg hd2, if_neg hd3, if_neg hd4,
      if_neg (by rw [h4]; simp), h5]
    simp only [Option.bind_eq_bind, Option.some_bind]
    rfl
  · rw [extend_env_cell _ _ _ _ hg]
  · rw [extend_env_cell _ _ _ _ hg]
  · exact extend_pair_cell _ _ _ _ hg
  · intro b hb1 hb2
    exact extend_frame _ _ _ _ _ hb1 hb2

theorem getD_set (l : List Sexpr_t) (i j : Nat) (x d : Sexpr_t) :
    (l.set i x).getD j d = if i = j ∧ i < l.length then x else l.getD j d := by
  simp only [List.getD_eq_getElem?_getD, List.getElem?_set]
  rcases Decidable.em (i = j) with h | h
  · subst h
    rcases Decidable.em (i < l.length) with h2 | h2
    · simp [h2]
    · simp [h2, List.getElem?_eq_none (Nat.le_of_not_lt h2)]
  · simp [h]

theorem unmark_set_mark (store : List Sexpr_t) (root a : Nat) :
    unmarkCell ((store.set root
        { store.getD root defaultCell with gcmark := true }).getD a defaultCell) =
      unmarkCell (store.getD a defaultCell) := by
  rw [getD_set]
  rcases Decidable.em (root = a ∧ root < store.length) with h | h
  · rw [if_pos h, ← h.1]
    rfl
  · rw [if_neg h]

theorem gcmarkFold_length (n : Nat) (f : Nat → Nat)
    (ih : ∀ store root, (gcmark n store root).length = store.length) :
    ∀ (is : List Nat) (store : List Sexpr_t),
      (is.foldl (fun s i => gcmark n s (f i)) store).length = store.length
  | [], _ => rfl
  | i :: rest, store => by
    rw [List.foldl_cons, gcmarkFold_length n f ih rest _, ih]

theorem gcmark_length : ∀ (fuel : Nat) (store : List Sexpr_t) (root : Nat),
    (gcmark fuel store root).length = store.length
  | 0, _, _ => rfl
  | Nat.succ n, store, root => by
    simp only [gcmark]
    by_cases hm : (store.getD root defaultCell).gcmark = true
    · rw [if_pos hm]
    · rw [if_neg hm]
      by_cases hL : (store.getD root defaultCell).type = Sexpr_e.S_LIST
      · rw [if_pos hL,
          gcmarkFold_length n _ (fun s r => gcmark_length n s r) _ _, List.length_set]
      · rw [if_neg hL]
        by_cases hP : (store.getD root defaultCell).type = Sexpr_e.S_PROC
        · rw [if_pos hP, gcmark_length n _ _, gcmark_length n _ _, gcmark_length n _ _,
            List.length_set]
        · rw [if_neg hP, List.length_set]

theorem gcmarkFold_payload (n : Nat) (f : Nat → Nat)
    (ih : ∀ store root a, unmarkCell ((gcmark n store root).getD a defaultCell) =
      unmarkCell (store.getD a defaultCell)) :
    ∀ (is : List Nat) (store : List Sexpr_t) (a : Nat),
      unmarkCell ((is.foldl (fun s i => gcmark n s (f i)) store).getD a defaultCell) =
        unmarkCell (store.getD a defaultCell)
  | [], _, _ => rfl
  | i :: rest, store, a => by
    rw [List.foldl_cons, gcmarkFold_payload n f ih rest _ a, ih]

/-- The mark phase only sets mark bits: modulo the mark bit, every slot
of the store is untouched. -/
theorem gcmark_payload : ∀ (fuel : Nat) (store : List Sexpr_t) (root a : Nat),
    unmarkCell ((gcmark fuel store root).getD a defaultCell) =
      unmarkCell (store.getD a defaultCell)
  | 0, _, _, _ => rfl
  | Nat.succ n, store, root, a => by
    simp only [gcmark]
    by_cases hm : (store.getD root defaultCell).gcmark = true
    · rw [if_pos hm]
    · rw [if_neg hm]
      by_cases hL : (store.getD root defaultCell).type = Sexpr_e.S_LIST
      · rw [if_pos hL,
          gcmarkFold_payload n _ (fun s r b => gcmark_payload n s r b) _ _ a,
          unmark_set_mark]
      · rw [if_neg hL]
        by_cases hP : (store.getD root defaultCell).type = Sexpr_e.S_PROC
        · rw [if_pos hP, gcmark_payload n _ _ a, gcmark_payload n _ _ a,
            gcmark_payload n _ _ a, unmark_set_mark]
        · rw [if_neg hP, unmark_set_mark]

theorem gcmarkFold_mono (n : Nat) (f : Nat → Nat)
    (ih : ∀ store root a, (store.getD a defaultCell).gcmark = true →
      ((gcmark n store root).getD a defaultCell).gcmark = true) :
    ∀ (is : List Nat) (store : List Sexpr_t) (a : Nat),
      (store.getD a defaultCell).gcmark = true →
      ((is.foldl (fun s i => gcmark n s (f i)) store).getD a defaultCell).gcmark = true
  | [], _, _, h => h
  | i :: rest, store, a, h => by
    rw [List.foldl_cons]
    exact gcmarkFold_mono n f ih rest _ a (ih store (f i) a h)

/-- Marking never clears a mark bit. -/
theorem gcmark_mono : ∀ (fuel : Nat) (store : List Sexpr_t) (root a : Nat),
    (store.getD a defaultCell).gcmark = true →
    ((gcmark fuel store root).getD a defaultCell).gcmark = true
  | 0, _, _, _, h => h
  | Nat.succ n, store, root, a, h => by
    simp only [gcmark]
    have hset : ((store.set root
        { store.getD root defaultCell with gcmark := true }).getD a defaultCell).gcmark
        = true := by
      rw [getD_set]
      rcases Decidable.em (root = a ∧ root < store.length) with h2 | h2
      · rw [if_pos h2]
      · rw [if_neg h2]
        exact h
    by_cases hm : (store.getD root defaultCell).gcmark = true
    · rw [if_pos hm]
      exact h
    · rw [if_neg hm]
      by_cases hL : (store.getD root defaultCell).type = Sexpr_e.S_LIST
      · rw [if_pos hL]
        exact gcmarkFold_mono n _ (fun s r b => gcmark_mono n s r b) _ _ a hset
      · rw [if_neg hL]
        by_cases hP : (store.getD root defaultCell).type = Sexpr_e.S_PROC
        · rw [if_pos hP]
          exact gcmark_mono n _ _ a (gcmark_mono n _ _ a (gcmark_mono n _ _ a hset))
        · rw [if_neg hP]
          exact hset

/-- With any fuel at all, marking sets the root's mark bit (for a live
root address). -/
theorem gcmark_marks_root (fuel : Nat) (store : List Sexpr_t) (root : Nat)
    (hf : 1 ≤ fuel) (hr : root < store.length) :
    ((gcmark fuel store root).getD root defaultCell).gcmark = true := by
  match fuel, hf with
  | Nat.succ n, _ =>
    simp only [gcmark]
    have hset : ((store.set root
        { store.getD root defaultCell with gcmark := true }).getD root defaultCell).gcmark
        = true := by
      rw [getD_set, if_pos ⟨rfl, hr⟩]
    by_cases hm : (store.getD root defaultCell).gcmark = true
    · rw [if_pos hm]
      exact hm
    · rw [if_neg hm]
      by_cases hL : (store.getD root defaultCell).type = Sexpr_e.S_LIST
      · rw [if_pos hL]
        exact gcmarkFold_mono n _ (fun s r b => gcmark_mono n s r b) _ _ root hset
      · rw [if_neg hL]
        by_cases hP : (store.getD root defaultCell).type = Sexpr_e.S_PROC
        · rw [if_pos hP]
          exact gcmark_mono n _ _ root (gcmark_mono n _ _ root (gcmark_mono n _ _ root hset))
        · rw [if_neg hP]
          exact hset

theorem gcmarkFold_marks (n : Nat) (hn : 1 ≤ n) (f : Nat → Nat) :
    ∀ (is : List Nat) (store : List Sexpr_t),
      (∀ i ∈ is, f i < store.length) →
      ∀ i ∈ is,
        ((is.foldl (fun s j => gcmark n s (f j)) store).getD (f i) defaultCell).gcmark = true
  | [], _, _, i, h => absurd h (by simp)
  | j :: rest, store, hlt, i, h => by
    rw [List.foldl_cons]
    rcases List.mem_cons.mp h with he | hr2
    · have hmark : ((gcmark n store (f j)).getD (f j) defaultCell).gcmark = true :=
        gcmark_marks_root n store (f j) hn (hlt j (by simp))
      rw [he]
      exact gcmarkFold_mono n f (fun s r b => gcmark_mono n s r b) rest _ (f j) hmark
    · exact gcmarkFold_marks n hn f rest (gcmark n store (f j))
        (fun i' hi' => by
          rw [gcmark_length]
          exact hlt i' (List.mem_cons_of_mem _ hi'))
        i hr2

/-- C1 amended: `lisp_clean` frees nothing — the sweep phase is empty,
so the store keeps its length and every cell keeps its payload (only
mark bits change) and in particular every cell referenced from `env` or
`global` stays accessible; the mark phase's only root is the global
environment: the unmarked global cell is marked together with all the
binding pairs it references (so the singletons and form markers are
kept via their global bindings), while cells referenced only from
`env` can stay unmarked. -/
theorem lisp_clean_sound (fuel : Nat) (st : LState)
    (hf : 2 ≤ fuel)
    (hg : st.global < st.store.length)
    (hty : (cellAt st st.global).type = Sexpr_e.S_LIST)
    (hunm : (cellAt st st.global).gcmark = false)
    (hlen : (cellAt st st.global).len = (cellAt st st.global).list.length)
    (hch : ∀ a ∈ (cellAt st st.global).list, a < st.store.length) :
    (lisp_clean fuel st).store.length = st.store.length
    ∧ (∀ a, unmarkCell (cellAt (lisp_clean fuel st) a) = unmarkCell (cellAt st a))
    ∧ (cellAt (lisp_clean fuel st) st.global).gcmark = true
    ∧ (∀ a ∈ (cellAt st st.global).list, (cellAt (lisp_clean fuel st) a).gcmark = true) := by
  have hclean : ∀ a, cellAt (lisp_clean fuel st) a =
      (gcmark fuel st.store st.global).getD a defaultCell := fun a => rfl
  have hcell : ∀ a, cellAt st a = st.store.getD a defaultCell := fun a => rfl
  refine ⟨gcmark_length fuel st.store st.global, ?_, ?_, ?_⟩
  · intro a
    rw [hclean a, hcell a]
    exact gcmark_payload fuel st.store st.global a
  · rw [hclean]
    exact gcmark_marks_root fuel st.store st.global (by omega) hg
  · intro a hmem
    obtain ⟨m, hmfuel⟩ : ∃ m, fuel = m + 1 := ⟨fuel - 1, by omega⟩
    have hm1 : 1 ≤ m := by omega
    rw [hclean a, hmfuel]
    simp only [gcmark]
    rw [if_neg (by rw [← hcell st.global, hunm]; simp),
      if_pos (by rw [← hcell st.global]; exact hty)]
    obtain ⟨i, hilen, hieq⟩ := List.mem_iff_getElem.mp hmem
    have higet : (fun j => (st.store.getD st.global defaultCell).list.getD j 0) i = a := by
      show (cellAt st st.global).list.getD i 0 = a
      rw [List.getD_eq_getElem?_getD, List.getElem?_eq_getElem hilen, hieq]
      rfl
    have hirange : i ∈ List.range (st.store.getD st.global defaultCell).len := by
      refine List.mem_range.mpr ?_
      show i < (cellAt st st.global).len
      omega
    rw [← higet]
    exact gcmarkFold_marks m hm1
      (fun j => (st.store.getD st.global defaultCell).list.getD j 0)
      (List.range (st.store.getD st.global defaultCell).len)
      (st.store.set st.global
        { st.store.getD st.global defaultCell with gcmark := true })
      (fun j hj => by
        rw [List.length_set]
        show (cellAt st st.global).list.getD j 0 < st.store.length
        have hjlen : j < (cellAt st st.global).list.length := by
          have hjm : j < (cellAt st st.global).len := List.mem_range.mp hj
          omega
        apply hch
        rw [List.getD_eq_getElem?_getD, List.getElem?_eq_getElem hjlen]
        exact List.getElem_mem hjlen)
      i hirange

/-- Witness for C1 at the concrete store `gcExample` (global holds the
pair cell 2). -/
theorem lisp_clean_sound_witness :
    (lisp_clean 2 gcExample).store.length = gcExample.store.length
    ∧ (∀ a, unmarkCell (cellAt (lisp_clean 2 gcExample) a) = unmarkCell (cellAt gcExample a))
    ∧ (cellAt (lisp_clean 2 gcExample) gcExample.global).gcmark = true
    ∧ (∀ a ∈ (cellAt gcExample gcExample.global).list,
        (cellAt (lisp_clean 2 gcExample) a).gcmark = true) :=
  lisp_clean_sound 2 gcExample (by decide) (by decide) (by decide) (by decide) (by decide)
    (by decide)

/-- C8 amended: inside a string literal the early reader maps exactly
the escapes `\\`→`\\`, `\"`→`\"` and `\n`→newline; a backslash followed
by any other byte — including `t`, `(`, `)` and octal digits — is a
"Not an escape character" failure (NULL return). -/
theorem parse_string_escape_map (buf rest : List Nat) (e : Nat)
    (hlen : buf.length < MAX_STR) :
    parse_string_loop buf (92 :: e :: rest) =
      if e = 92 ∨ e = 34 then parse_string_loop (buf ++ [e]) rest
      else if e = 110 then parse_string_loop (buf ++ [10]) rest
      else none := by
  simp only [parse_string_loop]
  rw [if_neg (by omega), if_neg (by decide), if_pos (by trivial)]

/-- Witness for C8: the newline escape at the start of a string. -/
theorem parse_string_escape_map_witness :
    parse_string_loop [] (92 :: 110 :: [34]) =
      if (110 : Nat) = 92 ∨ (110 : Nat) = 34 then parse_string_loop ([] ++ [110]) [34]
      else if (110 : Nat) = 110 then parse_string_loop ([] ++ [10]) [34]
      else none :=
  parse_string_escape_map [] [34] 110 (by decide)

/-- Witness for C4 at the concrete form `(define foo 42)` of
`defineExample`. -/
theorem define_extends_global_witness :
    ∃ stf, lisp_eval 2 8 4 defineExample = some (stf, 7)
      ∧ (cellAt stf defineExample.global).list =
          (cellAt defineExample defineExample.global).list ++ [defineExample.store.length]
      ∧ (cellAt stf defineExample.global).len =
          (cellAt defineExample defineExample.global).len + 1
      ∧ cellAt stf defineExample.store.length =
          pairCell ((cellAt defineExample 8).list.getD 1 0) 7
      ∧ (∀ b, b ≠ defineExample.global → b ≠ defineExample.store.length →
          cellAt stf b = cellAt defineExample b) :=
  define_extends_global 1 8 4 defineExample defineExample defineExample 7 (by decide)
    (by decide) (by decide) (by decide) (by decide) (by decide) (by decide) (by decide)
    (by decide) (by decide) (by decide)

end CLisp



